import Mathlib

/-!
Verification of the gw_rhythmx_query_engine answer-synthesis pipeline.

This file is a shallow embedding of `src/engine/handlers.py`,
`src/engine/query_router.py`, `src/engine/query_engine.py` and
`src/engine/normalize.py`.  Python strings are `String`, Python lists are
`List`, Python dicts used as records become structures, timestamps are `Int`
(seconds since the epoch), and the external `dateutil` parser is a parameter
`parse : String -> Option Int` (the general theorems quantify over it; the
concrete witnesses instantiate it with the ISO-date model `isoParseTs`).
Python's stable `sorted(..., key=k, reverse=True)` is modelled by insertion
sort with the relation `k b <= k a`; stable sorts for a total preorder are
extensionally unique, so this is a faithful model.  Fallible Python code
(attribute errors) is modelled with `Except Unit`.
-/

namespace RQE

/-- Characterwise split on a separator character; models Python `s.split(sep)`
for a one-character separator (`"".split(sep) == [""]` as well). -/
def splitListC (sep : Char) : List Char → List (List Char)
  | [] => [[]]
  | c :: t =>
    let r := splitListC sep t
    if c = sep then [] :: r
    else match r with | [] => [[c]] | h :: t' => (c :: h) :: t'

/-- Python `s.split(sep)` for a one-character separator. -/
def pySplit (sep : Char) (s : String) : List String :=
  (splitListC sep s.toList).map String.mk

/-- Python `s.lower()` (kernel-reducible form). -/
def pyLower (s : String) : String := String.mk (s.toList.map Char.toLower)

/-- Python `s.upper()` (kernel-reducible form). -/
def pyUpper (s : String) : String := String.mk (s.toList.map Char.toUpper)

/-- Python `s.strip()` (kernel-reducible form). -/
def pyStrip (s : String) : String :=
  String.mk ((s.toList.dropWhile Char.isWhitespace).reverse.dropWhile Char.isWhitespace |>.reverse)

/-- Python `sep.join(xs)` (kernel-reducible form). -/
def joinSep (sep : String) : List String → String
  | [] => ""
  | [x] => x
  | x :: y :: xs => x ++ sep ++ joinSep sep (y :: xs)

/-- Python's substring test `sub in l` on lists of characters. -/
def infixOf (sub : List Char) : List Char → Bool
  | [] => sub.isEmpty
  | c :: t => sub.isPrefixOf (c :: t) || infixOf sub t

/-- Python's substring test `sub in s` for strings. -/
def pyIn (sub s : String) : Bool := infixOf sub.toList s.toList

/-- Order-preserving dedup that also drops empty strings; mirrors the
`if s and s not in uniq: uniq.append(s)` idiom of `format_answer`. -/
def uniqNonempty (ss : List String) : List String :=
  ss.foldl (fun u s => if s ≠ "" ∧ s ∉ u then u ++ [s] else u) []

/-- Digit-string to number (all characters must be digits, at least one). -/
def digitsToNat (s : String) : Option Nat :=
  if s.toList ≠ [] ∧ s.toList.all Char.isDigit then
    some (s.toList.foldl (fun n c => 10 * n + (c.toNat - 48)) 0)
  else none

/-- Days from 1970-01-01 to the given civil date (proleptic Gregorian). -/
def daysFromCivil (y m d : Int) : Int :=
  let y := if m ≤ 2 then y - 1 else y
  let era := (if 0 ≤ y then y else y - 399) / 400
  let yoe := y - era * 400
  let mp := (m + 9) % 12
  let doy := (153 * mp + 2) / 5 + d - 1
  let doe := yoe * 365 + yoe / 4 - yoe / 100 + doy
  era * 146097 + doe - 719468

/-- Model of the external `dateutil.parser.parse(v).timestamp()` call,
restricted to ISO `YYYY-MM-DD` dates (UTC).  The general theorems below
quantify over the parse function; this model is only used to instantiate
concrete witnesses, on date strings where dateutil's behaviour is
unambiguous. -/
def isoParseTs (s : String) : Option Int :=
  match pySplit '-' s with
  | [y, m, d] =>
    match digitsToNat y, digitsToNat m, digitsToNat d with
    | some yn, some mn, some dn =>
      if y.length = 4 ∧ m.length = 2 ∧ d.length = 2 ∧
          1 ≤ mn ∧ mn ≤ 12 ∧ 1 ≤ dn ∧ dn ≤ 31 then
        some (86400 * daysFromCivil yn mn dn)
      else none
    | _, _, _ => none
  | _ => none

/-- Canonical Condition row produced by `normalize` (src/engine/normalize.py). -/
structure ConditionRow where
  source : String
  text : String
  codings : List String
  onset : String
  recorded : String
  clinicalStatus : String
  verificationStatus : String
deriving DecidableEq, Repr

/-- Canonical medication row (MedicationStatement / MedicationRequest).
`status` is `Option String`: the source stores `raw.get("status")`, which may
be absent (`None`); handlers read it through `(m.get("status") or "")`. -/
structure MedicationRow where
  source : String
  resourceType : String
  text : String
  codings : List String
  status : Option String
  effective : String
  dosageText : String
  reason : String
deriving DecidableEq, Repr

/-- Canonical Observation row. -/
structure ObservationRow where
  source : String
  text : String
  codings : List String
  value : String
  effective : String
  issued : String
  status : Option String
  interpretation : String
  interpretationCodings : List String
deriving DecidableEq, Repr

/-- Canonical AllergyIntolerance row. -/
structure AllergyRow where
  source : String
  text : String
  codings : List String
  criticality : Option String
  clinicalStatus : String
  verificationStatus : String
  category : List String
  reactions : String
deriving DecidableEq, Repr

/-- Canonical Encounter row (`end` is a Lean keyword, hence `end_`). -/
structure EncounterRow where
  source : String
  type : String
  reason : String
  start : String
  end_ : String
  status : Option String
deriving DecidableEq, Repr

/-- Retrieval chunk.  The `meta` back-reference of the source (never read by
the code verified here) is omitted. -/
structure Chunk where
  source : String
  text : String
deriving DecidableEq, Repr

/-- The normalized corpus (src/engine/types.py `Normalized`). -/
structure Normalized where
  conditions : List ConditionRow
  medications : List MedicationRow
  observations : List ObservationRow
  allergies : List AllergyRow
  encounters : List EncounterRow
  chunks : List Chunk
deriving DecidableEq, Repr

/-- A handler fact `{source, text}`. -/
structure Fact where
  source : String
  text : String
deriving DecidableEq, Repr

/-- Handler return value `{facts, answer}`. -/
structure HandlerOut where
  facts : List Fact
  answer : String
deriving DecidableEq, Repr

/-- All sources of canonical rows of a corpus. -/
def corpusSources (nz : Normalized) : List String :=
  nz.conditions.map (·.source) ++ nz.medications.map (·.source) ++
  nz.observations.map (·.source) ++ nz.allergies.map (·.source) ++
  nz.encounters.map (·.source)

/-- Embedding of `handlers._coding_label` (src/engine/handlers.py:11). -/
def _coding_label (system : String) : Option String :=
  if system = "" then none
  else
    let s := pyStrip (pyLower system)
    if pyIn "loinc" s || s = "http://loinc.org" then some "LOINC"
    else if pyIn "snomed" s || pyIn "snomed.info/sct" s then some "SNOMED"
    else if pyIn "icd-10" s || pyIn "icd10" s then some "ICD-10"
    else if pyIn "icd-9" s || pyIn "icd9" s then some "ICD-9"
    else if pyIn "rxnorm" s || pyIn "nlm.nih.gov/research/umls/rxnorm" s then some "RxNorm"
    else if pyIn "cpt" s then some "CPT"
    else none

/-- Embedding of `handlers._parse_coding_triplet`: split `system|code|display`. -/
def _parse_coding_triplet (coding : String) : String × String × String :=
  let parts := pySplit '|' coding
  (pyStrip (parts.getD 0 ""), pyStrip (parts.getD 1 ""), pyStrip (parts.getD 2 ""))

/-- Replace the value stored at a key of an association list, in place. -/
def alistSet {β : Type} (l : List (String × β)) (k : String) (v : β) : List (String × β) :=
  match l with
  | [] => []
  | (k', v') :: t => if k' = k then (k, v) :: t else (k', v') :: alistSet t k v

/-- Embedding of `handlers._extract_code_refs`; a Python dict (insertion
ordered) is modelled by an association list. -/
def _extract_code_refs (codings : List String) : List (String × List String) :=
  codings.foldl (fun out c =>
    let t := _parse_coding_triplet c
    if t.2.1 = "" then out
    else
      match _coding_label t.1 with
      | none => out
      | some label =>
        match out.lookup label with
        | none => out ++ [(label, [t.2.1])]
        | some codes => if t.2.1 ∈ codes then out else alistSet out label (codes ++ [t.2.1])) []

/-- Embedding of `handlers._format_code_refs`. -/
def _format_code_refs (codings : List String) (prefer : List String) : String :=
  let refs := _extract_code_refs codings
  if refs = [] then ""
  else
    let order := if prefer = [] then ["ICD-10", "SNOMED", "LOINC", "RxNorm", "CPT", "ICD-9"] else prefer
    let parts := order.filterMap (fun k =>
      match refs.lookup k with
      | some codes =>
        if codes ≠ [] then some (k ++ ": " ++ joinSep ", " (codes.take 3)) else none
      | none => none)
    let parts := parts ++ refs.filterMap (fun kc =>
      if kc.1 ∈ order ∨ kc.2 = [] then none
      else some (kc.1 ++ ": " ++ joinSep ", " (kc.2.take 3)))
    joinSep "; " parts

/-- Embedding of `handlers.format_answer`. -/
def format_answer (lines sources : List String) : String :=
  if lines = [] then "Not found in provided records."
  else joinSep "\n" (lines ++ ["", "Source: " ++ joinSep ", " (uniqNonempty sources)])

/-- The sort key of `handlers._sort_by_date.parse_dt`: empty or unparseable
dates become `-1`.  `parse` models `dateutil.parser.parse(v).timestamp()`. -/
def parse_dt (parse : String → Option Int) (v : String) : Int :=
  if v = "" then -1 else match parse v with | none => -1 | some t => t

/-- Embedding of `handlers._sort_by_date`: Python's stable
`sorted(rows, key=..., reverse=True)` is modelled by insertion sort with the
descending relation (stable sorts of a total preorder are extensionally
unique, so this is a faithful model of CPython's stable sort). -/
def _sort_by_date {α : Type} (parse : String → Option Int) (key : α → String)
    (rows : List α) : List α :=
  List.insertionSort (fun a b => parse_dt parse (key b) ≤ parse_dt parse (key a)) rows

/-- The statement line of `handle_condition` for one row. -/
def condLine (ent : String) (c : ConditionRow) : String :=
  let name := if c.text ≠ "" then c.text else "Unknown condition"
  let refs := _format_code_refs c.codings ["ICD-10", "SNOMED", "ICD-9"]
  let recorded := if c.recorded ≠ "" then c.recorded else c.onset
  let line := if ent ≠ "" then "The patient has " ++ name else "Condition: " ++ name
  let line := if refs ≠ "" then line ++ " (" ++ refs ++ ")" else line
  if recorded ≠ "" then line ++ " recorded on " ++ recorded else line

/-- The entity filter of `handle_condition`: substring match of the entity
against the condition text or the joined coding blob; all conditions when the
entity is empty. -/
def cond_matches (nz : Normalized) (ent : String) : List ConditionRow :=
  if ent ≠ "" then
    nz.conditions.filter (fun c =>
      pyIn ent (pyLower c.text) || pyIn ent (pyLower (joinSep " " c.codings)))
  else nz.conditions

/-- Embedding of `handlers.handle_condition` (src/engine/handlers.py:97). -/
def handle_condition (parse : String → Option Int) (nz : Normalized)
    (entity : String) : HandlerOut :=
  if nz.conditions = [] then ⟨[], "Not found in provided records."⟩
  else
    let ent := pyLower (pyStrip entity)
    if cond_matches nz ent = [] then ⟨[], "Not found in provided records."⟩
    else
      let ms := _sort_by_date parse (fun c => c.recorded) (cond_matches nz ent)
      ⟨ms.map (fun c => ⟨c.source, condLine ent c⟩),
       format_answer (ms.map (condLine ent)) (ms.map (·.source))⟩

/-- The statement line of `handle_medications` for one row. -/
def medLine (m : MedicationRow) : String :=
  let name := if m.text ≠ "" then m.text else "Unknown medication"
  let refs := _format_code_refs m.codings ["RxNorm", "SNOMED"]
  let line := "Medication: " ++ name
  let line := if refs ≠ "" then line ++ " (" ++ refs ++ ")" else line
  let line := if m.dosageText ≠ "" then line ++ "; dosage: " ++ m.dosageText else line
  let line := if m.reason ≠ "" then line ++ "; indication: " ++ m.reason else line
  if m.effective ≠ "" then line ++ "; date: " ++ m.effective else line

/-- The Python idiom `(m.get("status") or "").lower()`. -/
def statusLower (m : MedicationRow) : String := pyLower (m.status.getD "")

/-- The entity filter of `handle_medications`: reason-based match preferred,
falling back to the medication text; empty when no entity was extracted. -/
def med_filtered (nz : Normalized) (ent : String) : List MedicationRow :=
  if ent ≠ "" then
    let byReason := nz.medications.filter (fun m => pyIn ent (pyLower m.reason))
    if byReason = [] then nz.medications.filter (fun m => pyIn ent (pyLower m.text))
    else byReason
  else []

/-- The final row list of `handle_medications` before date sorting: the
entity filter result (falling back to all medications), preferring
non-stopped / non-entered-in-error rows when any exist. -/
def med_use_list (nz : Normalized) (ent : String) : List MedicationRow :=
  let ul := if med_filtered nz ent = [] then nz.medications else med_filtered nz ent
  let active := ul.filter (fun m =>
    statusLower m ∉ (["stopped", "entered-in-error"] : List String))
  if active = [] then ul else active

/-- Embedding of `handlers.handle_medications` (src/engine/handlers.py:139). -/
def handle_medications (parse : String → Option Int) (nz : Normalized)
    (entity : String) : HandlerOut :=
  if nz.medications = [] then ⟨[], "Not found in provided records."⟩
  else
    let ent := pyLower (pyStrip entity)
    let us := _sort_by_date parse (fun m => m.effective) (med_use_list nz ent)
    ⟨us.map (fun m => ⟨m.source, medLine m⟩),
     format_answer (us.map medLine) (us.map (·.source))⟩

/-- The statement line of `handle_allergies` for one row. -/
def allergyLine (a : AllergyRow) : String :=
  let name := if a.text ≠ "" then a.text else "Unknown allergen"
  let refs := _format_code_refs a.codings ["SNOMED", "RxNorm"]
  let line := "Allergy: " ++ name
  let line := if refs ≠ "" then line ++ " (" ++ refs ++ ")" else line
  if a.reactions ≠ "" then line ++ "; reaction: " ++ a.reactions else line

/-- Embedding of `handlers.handle_allergies` (src/engine/handlers.py:190). -/
def handle_allergies (nz : Normalized) : HandlerOut :=
  let alls := nz.allergies
  if alls = [] then ⟨[], "Not found in provided records."⟩
  else
    ⟨alls.map (fun a => ⟨a.source, allergyLine a⟩),
     format_answer (alls.map allergyLine) (alls.map (·.source))⟩

/-- The fixed allergen → drug-class keyword table of
`handle_avoid_due_to_allergies`. -/
def allergen_keywords : List (String × List String) :=
  [("penicillin", ["penicillin", "amoxicillin", "ampicillin", "piperacillin", "ticarcillin",
                   "nafcillin", "oxacillin", "dicloxacillin"]),
   ("sulfonamide", ["sulfonamide", "sulfa", "sulfameth", "sulfadiazine", "sulfisoxazole",
                    "bactrim", "septra", "trimethoprim-sulfamethoxazole"]),
   ("iodinated contrast", ["iodinated", "contrast", "iohexol", "iopamidol", "ioversol",
                           "iothalamate"])]

/-- One entry of the first loop of `handle_avoid_due_to_allergies`
(src/engine/handlers.py:237): skips nameless allergies, classifies the
allergy as medication-related or not, and builds either the avoidance
statement or the plain allergy fact line. -/
def avoidProcessOne (a : AllergyRow) : Option (AllergyRow × Bool × String) :=
  let a_name := pyStrip a.text
  if a_name = "" then none
  else
    let a_lower := pyLower a_name
    let refs := _format_code_refs a.codings ["SNOMED", "RxNorm"]
    let is_med_related :=
      (["penicillin", "sulfon", "drug", "antibiotic", "contrast", "iodin"] : List String).any
        (fun k => pyIn k a_lower)
    if is_med_related then
      let stmt := "Avoid medications in the " ++ a_name ++ " class due to recorded allergy"
      let stmt := if refs ≠ "" then stmt ++ " (" ++ refs ++ ")" else stmt
      let stmt := if a.reactions ≠ "" then stmt ++ "; reaction: " ++ a.reactions else stmt
      some (a, true, stmt)
    else
      let line := "Allergy: " ++ a_name
      let line := if refs ≠ "" then line ++ " (" ++ refs ++ ")" else line
      let line := if a.reactions ≠ "" then line ++ "; reaction: " ++ a.reactions else line
      some (a, false, line)

/-- One (medication, allergy) comparison of the matching loop of
`handle_avoid_due_to_allergies` (src/engine/handlers.py:272): returns the
avoid line together with the medication and allergy sources on a keyword
match.  Note the source iterates over ALL medications, not only the current
(non-stopped) ones. -/
def avoidMatchOne (m : MedicationRow) (a : AllergyRow) : Option (String × String × String) :=
  let med_name := pyLower m.text
  let a_name := pyLower a.text
  if a_name = "" then none
  else
    let keys := (allergen_keywords.foldl
      (fun ks kkw => if pyIn kkw.1 a_name then ks ++ kkw.2 else ks) []) ++ [a_name]
    if keys.any (fun kw => kw ≠ "" && pyIn kw med_name) then
      let med_refs := _format_code_refs m.codings ["RxNorm", "SNOMED"]
      let alg_refs := _format_code_refs a.codings ["SNOMED", "RxNorm"]
      let line := "Avoid " ++ (if m.text ≠ "" then m.text else "this medication")
      let line := if med_refs ≠ "" then line ++ " (" ++ med_refs ++ ")" else line
      let line := line ++ " due to allergy to " ++ (if a.text ≠ "" then a.text else "recorded allergen")
      let line := if alg_refs ≠ "" then line ++ " (" ++ alg_refs ++ ")" else line
      some (line, m.source, a.source)
    else none

/-- The processed allergies of `handle_avoid_due_to_allergies`: one entry per
non-blank allergy, in order. -/
def avoidProcessed (nz : Normalized) : List (AllergyRow × Bool × String) :=
  nz.allergies.filterMap avoidProcessOne

/-- The `allergy_facts` of `handle_avoid_due_to_allergies`. -/
def avoidAllergyFacts (nz : Normalized) : List Fact :=
  (avoidProcessed nz).map (fun p => ⟨p.1.source, p.2.2⟩)

/-- The `matched_lines`/`matched_sources` triples of the
medication-vs-allergy matching loop of `handle_avoid_due_to_allergies`: all
medications crossed with all allergies, in iteration order. -/
def avoidMatched (nz : Normalized) : List (String × String × String) :=
  nz.medications.flatMap (fun m =>
    if pyLower m.text = "" then []
    else nz.allergies.filterMap (avoidMatchOne m))

/-- The `matched_sources` list (two entries per match: medication source then
allergy source). -/
def avoidMatchedSources (nz : Normalized) : List String :=
  (avoidMatched nz).flatMap (fun x => [x.2.1, x.2.2])

/-- Embedding of `handlers.handle_avoid_due_to_allergies`
(src/engine/handlers.py:215). -/
def handle_avoid_due_to_allergies (nz : Normalized) : HandlerOut :=
  let current_meds := nz.medications.filter (fun m =>
    statusLower m ∉ (["stopped", "entered-in-error"] : List String))
  let current_med_sources := (current_meds.map (·.source)).filter (· ≠ "")
  if nz.allergies = [] then ⟨[], "Not found in provided records."⟩
  else
    let allergy_facts := avoidAllergyFacts nz
    let avoid_recs := ((avoidProcessed nz).filter (fun p => p.2.1)).map (fun p => p.2.2)
    let sources0 := (avoidProcessed nz).map (fun p => p.1.source)
    let matched_lines := (avoidMatched nz).map (·.1)
    if avoidMatched nz ≠ [] then
      let lines := allergy_facts.foldl
        (fun ls f => if f.text ∈ ls then ls else ls ++ [f.text]) matched_lines
      let facts := (List.zip (avoidMatchedSources nz) matched_lines).map
        (fun st => Fact.mk st.1 st.2) ++ allergy_facts
      ⟨facts, format_answer lines (avoidMatchedSources nz ++ sources0)⟩
    else if avoid_recs = [] then handle_allergies nz
    else
      let med_src_preview := joinSep ", " (current_med_sources.take 6)
        ++ (if current_med_sources.length > 6 then "..." else "")
      let lines := if med_src_preview ≠ ""
        then ["No current medications (" ++ med_src_preview
              ++ ") directly match recorded medication allergies."]
        else ["No current medications directly match recorded medication allergies."]
      ⟨allergy_facts,
       format_answer (lines ++ avoid_recs) (sources0 ++ current_med_sources.filter (· ≠ ""))⟩

/-- Embedding of `handlers._is_abnormal` (src/engine/handlers.py:333). -/
def _is_abnormal (interpretation_text : String) (interpretation_codings : List String) :
    Option String :=
  let codes := interpretation_codings.filterMap (fun c =>
    let t := _parse_coding_triplet c
    if t.2.1 ≠ "" then some (pyUpper t.2.1) else none)
  if codes.any (fun c => c ∈ (["H", "HH", "L", "LL", "A", "AA"] : List String)) then
    if "H" ∈ codes ∨ "HH" ∈ codes then some "High"
    else if "L" ∈ codes ∨ "LL" ∈ codes then some "Low"
    else some "Abnormal"
  else
    let t := pyLower interpretation_text
    if (["high", "elevated", "above"] : List String).any (fun w => pyIn w t) then some "High"
    else if (["low", "below"] : List String).any (fun w => pyIn w t) then some "Low"
    else if pyIn "normal" t then some "Normal"
    else none

/-- The fixed lab-term keyword list of `handle_labs`. -/
def target_terms : List String :=
  ["hba1c", "a1c", "hemoglobin a1c", "creatinine", "egfr", "bun", "urea", "renal",
   "kidney", "cholesterol", "glucose", "blood pressure", "bmi"]

/-- The recency timestamp of an observation (`handle_labs.obs_ts`):
`effective` falling back to `issued`, `-1` when empty or unparseable. -/
def obs_ts (parse : String → Option Int) (o : ObservationRow) : Int :=
  let dt := if o.effective ≠ "" then o.effective else o.issued
  if dt = "" then -1 else match parse dt with | none => -1 | some t => t

/-- The grouping key of `handle_labs`: the first LOINC code when present,
else the lowercased test name. -/
def labKey (o : ObservationRow) : String :=
  match (_extract_code_refs o.codings).lookup "LOINC" with
  | some (c :: _) => "LOINC:" ++ c
  | _ => "NAME:" ++ pyLower o.text

/-- One step of the `best_by_key` loop of `handle_labs`: keep the entry with
the strictly larger timestamp (ties keep the earlier observation). -/
def labBestStep (parse : String → Option Int) (best : List (String × ObservationRow))
    (o : ObservationRow) : List (String × ObservationRow) :=
  match best.lookup (labKey o) with
  | none => best ++ [(labKey o, o)]
  | some prev => if obs_ts parse prev < obs_ts parse o then alistSet best (labKey o) o else best

/-- The `best_by_key` dict of `handle_labs` (insertion-ordered association
list, values in dict-insertion order as in Python). -/
def lab_best (parse : String → Option Int) (l : List ObservationRow) :
    List (String × ObservationRow) :=
  l.foldl (labBestStep parse) []

/-- The candidate observations of `handle_labs` after the query-term filter. -/
def labs_obs_use (nz : Normalized) (query_text : String) : List ObservationRow :=
  let q := pyLower query_text
  let want_terms := target_terms.filter (fun t => pyIn t q)
  if want_terms ≠ [] then
    nz.observations.filter (fun o =>
      want_terms.any (fun t => pyIn t (pyLower o.text)) ||
      want_terms.any (fun t => pyIn t (pyLower (joinSep " " o.codings))))
  else nz.observations

/-- The selected observations of `handle_labs`: most recent per group, sorted
by descending recency, capped at 10. -/
def labs_selected (parse : String → Option Int) (nz : Normalized)
    (query_text : String) : List ObservationRow :=
  let selected := (lab_best parse (labs_obs_use nz query_text)).map (·.2)
  (List.insertionSort (fun a b => obs_ts parse b ≤ obs_ts parse a) selected).take 10

/-- The statement line of `handle_labs` for one observation. -/
def labLine (o : ObservationRow) : String :=
  let test := if o.text ≠ "" then o.text else "Unknown test"
  let dt := if o.effective ≠ "" then o.effective else o.issued
  let loinc := _format_code_refs o.codings ["LOINC"]
  let interp := _is_abnormal o.interpretation o.interpretationCodings
  let line := "The most recent " ++ test
  let line := if loinc ≠ "" then line ++ " (" ++ loinc ++ ")" else line
  let line := if o.value ≠ "" then line ++ " value is " ++ o.value else line
  let line := match interp with
    | some l => if l = "High" ∨ l = "Low" ∨ l = "Abnormal" then line ++ " — abnormal (" ++ l ++ ")"
                else if l = "Normal" then line ++ " — normal" else line
    | none => line
  if dt ≠ "" then line ++ "; date: " ++ dt else line

/-- Embedding of `handlers.handle_labs` (src/engine/handlers.py:361). -/
def handle_labs (parse : String → Option Int) (nz : Normalized)
    (query_text : String) : HandlerOut :=
  if nz.observations = [] then ⟨[], "Not found in provided records."⟩
  else if labs_obs_use nz query_text = [] then ⟨[], "Not found in provided records."⟩
  else
    let sel := labs_selected parse nz query_text
    ⟨sel.map (fun o => ⟨o.source, labLine o⟩),
     format_answer (sel.map labLine) (sel.map (·.source))⟩

/-- The diabetes test of `handle_diabetes_complications`: keyword on the name
or an ICD-10 `E10`/`E11`/`E13` prefix. -/
def is_diabetes (c : ConditionRow) : Bool :=
  (["diabetes", "diabetic"] : List String).any (fun m => pyIn m (pyLower c.text)) ||
  (((_extract_code_refs c.codings).lookup "ICD-10").getD []).any (fun code =>
    (["E10", "E11", "E13"] : List String).any (fun p => p.isPrefixOf (pyUpper code)))

/-- The statement line of `handle_diabetes_complications` for one row. -/
def diabLine (c : ConditionRow) : String :=
  let name := if c.text ≠ "" then c.text else "Unknown condition"
  let refs := _format_code_refs c.codings ["ICD-10", "SNOMED"]
  let recorded := if c.recorded ≠ "" then c.recorded else c.onset
  let line := "Diabetes-related complication: " ++ name
  let line := if refs ≠ "" then line ++ " (" ++ refs ++ ")" else line
  if recorded ≠ "" then line ++ " recorded on " ++ recorded else line

/-- Embedding of `handlers.handle_diabetes_complications`
(src/engine/handlers.py:439). -/
def handle_diabetes_complications (parse : String → Option Int) (nz : Normalized) :
    HandlerOut :=
  let conditions := nz.conditions
  if conditions = [] then ⟨[], "Not found in provided records."⟩
  else
    let has_diabetes := conditions.any is_diabetes
    let complication_keywords : List String :=
      ["neuropathy", "retinopathy", "nephropathy", "kidney", "ckd", "chronic kidney",
       "ulcer", "foot", "amac", "macular", "microvascular", "macrovascular", "gastroparesis"]
    let complications := conditions.filter (fun c =>
      (["diabetes", "diabetic"] : List String).any (fun m => pyIn m (pyLower c.text)) ||
      (has_diabetes && complication_keywords.any (fun k => pyIn k (pyLower c.text))))
    if complications = [] then ⟨[], "Not found in provided records."⟩
    else
      let cs := _sort_by_date parse (fun c => c.recorded) complications
      ⟨cs.map (fun c => ⟨c.source, diabLine c⟩),
       format_answer (cs.map diabLine) (cs.map (·.source))⟩

/-- The statement line of `handle_encounters` for one row. -/
def encLine (e : EncounterRow) : String :=
  let typ := if e.type ≠ "" then e.type else "Unknown encounter"
  let line := if e.start ≠ "" then "Encounter on " ++ e.start ++ ": " ++ typ
              else "Encounter: " ++ typ
  if e.reason ≠ "" then line ++ "; reason: " ++ e.reason else line

/-- Embedding of `handlers.handle_encounters` (src/engine/handlers.py:498). -/
def handle_encounters (parse : String → Option Int) (nz : Normalized) : HandlerOut :=
  let enc := nz.encounters
  if enc = [] then ⟨[], "Not found in provided records."⟩
  else
    let enc_sorted := _sort_by_date parse (fun e => e.start) enc
    let last_two := if enc_sorted ≠ [] then enc_sorted.take 2 else enc.take 2
    ⟨last_two.map (fun e => ⟨e.source, encLine e⟩),
     format_answer (last_two.map encLine) (last_two.map (·.source))⟩

/-- Regex word characters `\w` (the router's questions are lower-cased
ASCII, so alphanumerics plus underscore suffice). -/
def isWordChar (c : Char) : Bool := c.isAlphanum || c = '_'

/-- Match a `\s+`-separated phrase of words at the head of `l`, requiring a
word boundary after the last word (the boundary before is checked by the
scanner). -/
def matchWords : List (List Char) → List Char → Bool
  | [], l => match l with | [] => true | c :: _ => !isWordChar c
  | [w], l =>
    w.isPrefixOf l &&
    (match l.drop w.length with | [] => true | c :: _ => !isWordChar c)
  | w :: w' :: ws, l =>
    w.isPrefixOf l &&
    (let rest := l.drop w.length
     match rest with
     | [] => false
     | c :: _ =>
       c.isWhitespace && matchWords (w' :: ws) (rest.dropWhile Char.isWhitespace))

/-- Scan for a phrase occurrence preceded by a word boundary (models
a `\b`-anchored alternative of the router's regexes). -/
def scanPhrase (ws : List (List Char)) : Option Char → List Char → Bool
  | prev, l =>
    ((match prev with | none => true | some c => !isWordChar c) && matchWords ws l)
    || (match l with | [] => false | c :: t => scanPhrase ws (some c) t)

/-- Scan for a prefix occurrence at a word start; models `\bw\w*` (and the
unanchored-end `\ballerg`) patterns of the router. -/
def scanWordStart (w : List Char) : Option Char → List Char → Bool
  | prev, l =>
    ((match prev with | none => true | some c => !isWordChar c) && w.isPrefixOf l)
    || (match l with | [] => false | c :: t => scanWordStart w (some c) t)

/-- Whole-word occurrence `\bw\b` in `s`. -/
def hasWord (s w : String) : Bool := scanPhrase [w.toList] none s.toList

/-- Phrase occurrence `\bw1\s+w2...\b` in `s`. -/
def hasPhrase (s : String) (ws : List String) : Bool :=
  scanPhrase (ws.map String.toList) none s.toList

/-- Word-start occurrence `\bw` in `s`. -/
def hasWordStart (s w : String) : Bool := scanWordStart w.toList none s.toList

/-- Any of the words occurs (a regex alternation of whole words). -/
def hasAnyWord (s : String) (ws : List String) : Bool := ws.any (hasWord s)

/-- `query_router._PAT_ALLERGY` over the lower-cased question. -/
def patAllergy (ql : String) : Bool :=
  hasAnyWord ql ["allergy", "allergies", "allergic", "anaphylaxis", "rash", "hives"]

/-- `query_router._PAT_ENCOUNTER` over the lower-cased question. -/
def patEncounter (ql : String) : Bool :=
  hasAnyWord ql ["encounter", "visit", "appointment"] ||
  hasPhrase ql ["urgent", "care"] || hasPhrase ql ["emergency", "room"] || hasWord ql "er"

/-- `query_router._PAT_LABS` over the lower-cased question. -/
def patLabs (ql : String) : Bool :=
  hasAnyWord ql ["lab", "labs", "result", "results", "observation", "loinc",
                 "creatinine", "egfr", "bun", "renal", "kidney", "a1c", "hba1c"]

/-- `query_router._PAT_MED` over the lower-cased question. -/
def patMed (ql : String) : Bool :=
  hasAnyWord ql ["medication", "medications", "drug", "drugs", "prescription", "taking"]

/-- `query_router._PAT_CONDITION` over the lower-cased question. -/
def patCondition (ql : String) : Bool :=
  hasAnyWord ql ["diagnosis", "condition"] ||
  hasPhrase ql ["history", "of"] || hasPhrase ql ["diagnosed", "with"] ||
  hasPhrase ql ["does", "the", "patient", "have"] || hasPhrase ql ["do", "they", "have"]

/-- The character class `[a-z0-9\-\s]` of `_extract_entity`. -/
def entClass (c : Char) : Bool :=
  ('a' ≤ c && c ≤ 'z') || c.isDigit || c = '-' || c.isWhitespace

/-- The lazy group `([a-z0-9\-\s]+?)(\?|\.|,|$)` once at least one class
character has been consumed: extend minimally until a terminator or the end
of the string, failing on a character outside the class. -/
def lazyGroupGo (acc : List Char) : List Char → Option (List Char)
  | [] => some acc
  | c :: t =>
    if c = '?' ∨ c = '.' ∨ c = ',' then some acc
    else if entClass c then lazyGroupGo (acc ++ [c]) t
    else none

/-- The lazy group requires at least one class character. -/
def lazyGroup : List Char → Option (List Char)
  | [] => none
  | c :: t => if entClass c then lazyGroupGo [c] t else none

/-- Backtracking over `\s+` (greedy, tried longest first) followed by the
lazy group: `w` counts the whitespace characters consumed. -/
def tryWs (l : List Char) : Nat → Option (List Char)
  | 0 => none
  | w + 1 =>
    match lazyGroup (l.drop (w + 1)) with
    | some g => some g
    | none => tryWs l w

/-- Match `\s+([a-z0-9\-\s]+?)(\?|\.|,|$)` at the head of `l`. -/
def matchEntityTail (l : List Char) : Option (List Char) :=
  tryWs l (l.takeWhile Char.isWhitespace).length

/-- Match one alternative `(?:have|diagnosed\s+with)` followed by the entity
tail, at the current position. -/
def tryEntityAt (l : List Char) : Option (List Char) :=
  (if "have".toList.isPrefixOf l then matchEntityTail (l.drop 4) else none).orElse
    (fun _ =>
      if "diagnosed".toList.isPrefixOf l then
        let rest := l.drop 9
        let ws := (rest.takeWhile Char.isWhitespace).length
        if ws ≠ 0 ∧ "with".toList.isPrefixOf (rest.drop ws) then
          matchEntityTail (rest.drop (ws + 4))
        else none
      else none)

/-- Leftmost-match scan of `(?:have|diagnosed\s+with)\s+(...)`. -/
def scanEntity : List Char → Option (List Char)
  | [] => none
  | c :: t =>
    match tryEntityAt (c :: t) with
    | some g => some g
    | none => scanEntity t

/-- Leftmost-match scan of `for\s+(...)`. -/
def scanForEntity : List Char → Option (List Char)
  | [] => none
  | c :: t =>
    match (if "for".toList.isPrefixOf (c :: t) then matchEntityTail ((c :: t).drop 3) else none) with
    | some g => some g
    | none => scanForEntity t

/-- Embedding of `query_router._extract_entity` (src/engine/query_router.py:73). -/
def _extract_entity (ql : String) : String :=
  match scanEntity ql.toList with
  | some g => pyStrip (String.mk g)
  | none =>
    match scanForEntity ql.toList with
    | some g => pyStrip (String.mk g)
    | none => ""

/-- Routed query `{intent, entity, raw}`. -/
structure RoutedQuery where
  intent : String
  entity : String
  raw : String
deriving DecidableEq, Repr

/-- Embedding of `query_router.route` (src/engine/query_router.py:37): total
by construction and deterministic (it is a function); ordered first-match-wins
rule precedence over the lower-cased stripped question. -/
def route (query : String) : RoutedQuery :=
  let q := pyStrip query
  let ql := pyLower q
  let entity := _extract_entity ql
  if (hasWordStart ql "avoid" || hasWordStart ql "contraindicat") && hasWordStart ql "allerg" then
    ⟨"avoid_allergies", entity, query⟩
  else if (hasWord ql "complication" || hasWord ql "complications") &&
      (hasWord ql "diabetes" || hasWord ql "diabetic") then
    ⟨"diabetes_complications", entity, query⟩
  else if patAllergy ql then ⟨"allergy", entity, query⟩
  else if patEncounter ql then ⟨"encounter", entity, query⟩
  else if patLabs ql then ⟨"labs", entity, query⟩
  else if patMed ql then ⟨"medication", entity, query⟩
  else if patCondition ql then ⟨"condition", entity, query⟩
  else ⟨"fallback", entity, query⟩

/-- The tail character class `[A-Za-z0-9\-\.]` of the citation-token regex. -/
def tokTailClass (c : Char) : Bool := c.isAlpha || c.isDigit || c = '-' || c = '.'

/-- Try to match `[A-Za-z]+/[A-Za-z0-9\-\.]+` at the head of `l`; on success
return the token and the remaining input (both runs are maximal, matching the
greedy regex). -/
def citeTry (l : List Char) : Option (String × List Char) :=
  let letters := l.takeWhile Char.isAlpha
  if letters = [] then none
  else
    match l.drop letters.length with
    | '/' :: r2 =>
      let tail := r2.takeWhile tokTailClass
      if tail = [] then none
      else some (String.mk (letters ++ '/' :: tail), r2.drop tail.length)
    | _ => none

/-- Fuelled scanner for `re.findall` of the citation-token regex: leftmost,
non-overlapping matches.  The fuel is the input length (each step consumes at
least one character). -/
def citeScanF : Nat → List Char → List String
  | 0, _ => []
  | _ + 1, [] => []
  | fuel + 1, c :: t =>
    if c.isAlpha then
      match citeTry (c :: t) with
      | some (tok, rest) => tok :: citeScanF fuel rest
      | none => citeScanF fuel t
    else citeScanF fuel t

/-- Embedding of `re.findall(r"[A-Za-z]+/[A-Za-z0-9\-\.]+", s)` as used by the
guardrail of `query_engine.answer_query`. -/
def citeTokens (s : String) : List String := citeScanF s.toList.length s.toList

/-- The final Answer shape of `query_engine.answer_query`; the `retrieved`
list (produced by the external float retrieval index, out of the shallow
embedding's scope) is omitted. -/
structure AnswerOut where
  question : String
  intent : String
  entity : String
  used_llm : Bool
  answer : String
  citations : List String
deriving DecidableEq, Repr

/-- The handler dispatch of `answer_query` (src/engine/query_engine.py:39):
routes the query and runs the matching handler, returning the routed query,
the facts and the deterministic answer. -/
def answerDispatch (parse : String → Option Int) (nz : Normalized) (query : String) :
    RoutedQuery × List Fact × String :=
  let rq := route query
  let out : HandlerOut :=
    if rq.intent = "condition" then handle_condition parse nz rq.entity
    else if rq.intent = "medication" then handle_medications parse nz rq.entity
    else if rq.intent = "allergy" then handle_allergies nz
    else if rq.intent = "avoid_allergies" then handle_avoid_due_to_allergies nz
    else if rq.intent = "diabetes_complications" then handle_diabetes_complications parse nz
    else if rq.intent = "labs" then handle_labs parse nz query
    else if rq.intent = "encounter" then handle_encounters parse nz
    else ⟨[], "Not found in provided records."⟩
  (rq, out.facts, out.answer)

/-- Python `sorted(set(xs))` on strings. -/
def sortedUnique (xs : List String) : List String :=
  (List.insertionSort (fun a b : String => a ≤ b) xs).dedup

/-- Embedding of `query_engine.answer_query` (src/engine/query_engine.py:21).
The generation provider is external; its outcome is the parameter
`genResult` (`.error ()` models any raised exception, `.ok t` a generated
text `t`).  The guardrail logic (lines 74-95 of the source) is verbatim:
generated text is accepted only when it is non-empty, contains `"Source:"`,
cites at least one token, and (when deterministic citations exist) cites a
subset of them. -/
def answer_query (parse : String → Option Int) (nz : Normalized) (query : String)
    (use_llm : Bool) (genResult : Except Unit String) : AnswerOut :=
  let d := answerDispatch parse nz query
  let rq := d.1
  let facts := d.2.1
  let deterministic_answer := d.2.2
  let det_citations := if facts ≠ [] then sortedUnique (facts.map (·.source)) else []
  let accepted : Bool × String :=
    if use_llm then
      match genResult with
      | .error _ => (false, deterministic_answer)
      | .ok llm_text =>
        if llm_text ≠ "" ∧ pyIn "Source:" llm_text then
          let cited := citeTokens llm_text
          if cited ≠ [] then
            if det_citations ≠ [] then
              if cited.all (· ∈ det_citations) then (true, llm_text)
              else (false, deterministic_answer)
            else (true, llm_text)
          else (false, deterministic_answer)
        else (false, deterministic_answer)
    else (false, deterministic_answer)
  ⟨query, rq.intent, rq.entity, accepted.1, accepted.2, det_citations⟩

/-- JSON-like values carried by raw FHIR resources (numbers are modelled as
integers: no claim depends on fractional number rendering). -/
inductive JValue where
  | null : JValue
  | str : String → JValue
  | num : Int → JValue
  | bool : Bool → JValue
  | arr : List JValue → JValue
  | obj : List (String × JValue) → JValue

/-- Test for JSON `null` (Python `is None`). -/
def jIsNull : JValue → Bool
  | .null => true
  | _ => false

/-- Python truthiness of a JSON value. -/
def jTruthy : JValue → Bool
  | .null => false
  | .str s => !(s == "")
  | .num n => !(n == 0)
  | .bool b => b
  | .arr l => !l.isEmpty
  | .obj kvs => !kvs.isEmpty

/-- `d.get(k)` on a dict (missing key gives `None`). -/
def jlookup (kvs : List (String × JValue)) (k : String) : JValue :=
  (kvs.lookup k).getD .null

/-- `raw.get(k)` where `raw` is known to be a dict. -/
def dget (raw : List (String × JValue)) (k : String) : JValue := jlookup raw k

/-- Python `a or b`. -/
def pyOr (a b : JValue) : JValue := if jTruthy a then a else b

/-- `v.get(k)` on an arbitrary value: raises `AttributeError` when `v` is not
a dict (models e.g. `(raw.get("period") or {}).get("start")` on a non-dict
`period`). -/
def jattrGet (v : JValue) (k : String) : Except Unit JValue :=
  match v with
  | .obj kvs => .ok (jlookup kvs k)
  | _ => .error ()

/-- Python `str(v)` for the scalar values reachable in this code; aggregate
values get a fixed abstract rendering (no verified path formats them). -/
def pyStr : JValue → String
  | .null => "None"
  | .str s => s
  | .num n => toString n
  | .bool true => "True"
  | .bool false => "False"
  | .arr _ => "[...]"
  | .obj _ => "\x7b...\x7d"

/-- Keep a value only when it is a JSON string (models storing
`raw.get("status")`, read back through `or ""` by the handlers). -/
def jStrOpt : JValue → Option String
  | .str s => some s
  | _ => none

/-- The idiom `(raw.get(k) or [{}])[0] if isinstance(raw.get(k), list) else
raw.get(k)` used for `reasonCode` and Encounter `type`. -/
def firstOrEmptyObjIfList : JValue → JValue
  | .arr [] => .obj []
  | .arr (x :: _) => x
  | v => v

/-- Embedding of `normalize._best_text` (src/engine/normalize.py:344).  The
`codings[0].get("display")` access raises `AttributeError` when the first
`coding` entry is not a dict — this is the fallible path. -/
def _best_text : JValue → Except Unit String
  | .obj kvs =>
    let fallthrough : Except Unit String :=
      match jlookup kvs "coding" with
      | .arr (c :: _) =>
        match c with
        | .obj ckvs =>
          match jlookup ckvs "display" with
          | .str d => if pyStrip d ≠ "" then .ok (pyStrip d) else .ok ""
          | _ => .ok ""
        | _ => .error ()
      | _ => .ok ""
    match jlookup kvs "text" with
    | .str s => if pyStrip s ≠ "" then .ok (pyStrip s) else fallthrough
    | _ => fallthrough
  | .str s => .ok (pyStrip s)
  | _ => .ok ""

/-- Embedding of `normalize._all_codings` (src/engine/normalize.py:326). -/
def _all_codings : JValue → List String
  | .obj kvs =>
    match jlookup kvs "coding" with
    | .arr cs =>
      cs.filterMap (fun c =>
        match c with
        | .obj ckvs =>
          let system := pyStrip (pyStr (pyOr (jlookup ckvs "system") (.str "")))
          let code := pyStrip (pyStr (pyOr (jlookup ckvs "code") (.str "")))
          let display := pyStrip (pyStr (pyOr (jlookup ckvs "display") (.str "")))
          if system ≠ "" ∨ code ≠ "" ∨ display ≠ "" then
            some (system ++ "|" ++ code ++ "|" ++ display)
          else none
        | _ => none)
    | _ => []
  | _ => []

/-- Embedding of `normalize._best_date` (src/engine/normalize.py:358);
`parseIso` models `dateutil.parser.parse(value).isoformat()` (`none` for a
parse failure, falling back to the raw string). -/
def _best_date (parseIso : String → Option String) : JValue → String
  | .null => ""
  | .str s => if s = "" then "" else (parseIso s).getD s
  | v => if jTruthy v then pyStr v else ""

/-- Embedding of `normalize._dosage_text` (src/engine/normalize.py:247). -/
def _dosage_text : JValue → String
  | .arr ds =>
    joinSep "; " ((ds.filterMap (fun d =>
      match d with
      | .obj kvs =>
        let txt := jlookup kvs "text"
        if jTruthy txt then some (pyStr txt) else none
      | _ => none)).filter (· ≠ ""))
  | _ => ""

/-- Embedding of `normalize._dosage_instruction_text`
(src/engine/normalize.py:136); textually identical to `_dosage_text`. -/
def _dosage_instruction_text : JValue → String
  | .arr ds =>
    joinSep "; " ((ds.filterMap (fun d =>
      match d with
      | .obj kvs =>
        let txt := jlookup kvs "text"
        if jTruthy txt then some (pyStr txt) else none
      | _ => none)).filter (· ≠ ""))
  | _ => ""

/-- Embedding of `normalize._interpretation` (src/engine/normalize.py:149):
returns `(interpretation_text, interpretation_codings)`. -/
def _interpretation : JValue → Except Unit (String × List String)
  | .arr items => do
    let st ← items.foldlM (fun (st : List String × List String) item =>
      match item with
      | .obj kvs => do
        let bt ← _best_text item
        let t := if bt ≠ "" then bt
                 else (let tv := jlookup kvs "text"; if jTruthy tv then pyStr tv else "")
        let texts := if t ≠ "" then st.1 ++ [t] else st.1
        pure (texts, st.2 ++ _all_codings item)
      | _ => pure st) (([], []) : List String × List String)
    pure (joinSep "; " st.1, uniqNonempty st.2)
  | _ => .ok ("", [])

/-- The state of the blood-pressure component scan of `_obs_value`. -/
structure BpState where
  sysV : Option JValue
  diaV : Option JValue
  unit : Option JValue

/-- Embedding of `normalize._obs_value` (src/engine/normalize.py:170). -/
def _obs_value (raw : List (String × JValue)) : Except Unit String := do
  let scalar : Except Unit String := do
    match dget raw "valueQuantity" with
    | .obj vq =>
      let val := jlookup vq "value"
      if !jIsNull val then
        return pyStrip (pyStr val ++ " " ++
          (let u := jlookup vq "unit"; if jTruthy u then pyStr u else ""))
      else pure ()
    | _ => pure ()
    match dget raw "valueString" with
    | .str vs => return vs
    | _ => pure ()
    let vb := dget raw "valueBoolean"
    if !jIsNull vb then return pyStr vb
    return ""
  match dget raw "component" with
  | .arr (c0 :: cs) =>
    let comps := c0 :: cs
    let bp ← comps.foldlM (fun (st : BpState) c =>
      match c with
      | .obj ckvs => do
        let code_txt ← _best_text (jlookup ckvs "code")
        let vq := pyOr (jlookup ckvs "valueQuantity") (.obj [])
        let val ← jattrGet vq "value"
        if jIsNull val then pure st
        else do
          let u ← jattrGet vq "unit"
          let st := if st.unit.isNone then { st with unit := some u } else st
          let st := if pyIn "systolic" (pyLower code_txt) then { st with sysV := some val } else st
          let st := if pyIn "diastolic" (pyLower code_txt) then { st with diaV := some val } else st
          pure st
      | _ => pure st) ⟨none, none, none⟩
    match bp.sysV, bp.diaV with
    | some sv, some dv =>
      pure (pyStrip (pyStr sv ++ "/" ++ pyStr dv ++ " " ++
        (match bp.unit with
         | some u => if jTruthy u then pyStr u else ""
         | none => "")))
    | _, _ => do
      let parts ← comps.foldlM (fun (parts : List String) c =>
        match c with
        | .obj ckvs => do
          let bt ← _best_text (jlookup ckvs "code")
          let name := if bt ≠ "" then bt else "component"
          match jlookup ckvs "valueQuantity" with
          | .obj vq =>
            let val := jlookup vq "value"
            if !jIsNull val then
              pure (parts ++ [pyStrip (name ++ ": " ++ pyStr val ++ " " ++
                (let u := jlookup vq "unit"; if jTruthy u then pyStr u else ""))])
            else pure parts
          | _ => pure parts
        | _ => pure parts) []
      if parts ≠ [] then pure (joinSep "; " parts) else scalar
  | _ => scalar

/-- Embedding of `normalize._reactions` (src/engine/normalize.py:223). -/
def _reactions : JValue → Except Unit String
  | .arr rs => do
    let parts ← rs.foldlM (fun (parts : List String) r =>
      match r with
      | .obj kvs => do
        let mani := pyOr (jlookup kvs "manifestation") (.arr [])
        let maniList := match mani with | .arr ml => ml | _ => ([] : List JValue)
        let maniTxt ← maniList.foldlM (fun (ts : List String) m =>
          match m with
          | .obj mk' => do
            let bt ← _best_text m
            let t := if bt ≠ "" then bt
                     else (let tv := pyOr (jlookup mk' "text") (.str "")
                           pyStr tv)
            pure (ts ++ [t])
          | _ => pure ts) ([] : List String)
        let svb ← _best_text (jlookup kvs "severity")
        let sev := if svb ≠ "" then svb
                   else (let sv := jlookup kvs "severity"
                         if jTruthy sv then pyStr sv else "")
        let expb ← _best_text (jlookup kvs "exposureRoute")
        let piece := joinSep ", " (maniTxt.filter (· ≠ ""))
        let piece := if sev ≠ "" then pyStrip (piece ++ " severity=" ++ sev) else piece
        let piece := if expb ≠ "" then pyStrip (piece ++ " route=" ++ expb) else piece
        pure (if piece ≠ "" then parts ++ [piece] else parts)
      | _ => pure parts) ([] : List String)
    pure (joinSep "; " parts)
  | _ => .ok ""

/-- Embedding of `normalize._normalize_medication` (src/engine/normalize.py:100). -/
def _normalize_medication (parseIso : String → Option String) (resource_type source : String)
    (raw : List (String × JValue)) : Except Unit MedicationRow := do
  if resource_type = "MedicationStatement" then
    let eff0 := dget raw "effectiveDateTime"
    let eff ← if jTruthy eff0 then pure eff0 else do
      let effp := pyOr (dget raw "effectivePeriod") (.obj [])
      let s ← jattrGet effp "start"
      let e ← jattrGet effp "end"
      pure (pyOr s e)
    let eff := if jTruthy eff then eff else dget raw "dateAsserted"
    let text ← _best_text (dget raw "medicationCodeableConcept")
    let reason ← _best_text (firstOrEmptyObjIfList (dget raw "reasonCode"))
    pure ⟨source, resource_type, text, _all_codings (dget raw "medicationCodeableConcept"),
      jStrOpt (dget raw "status"), _best_date parseIso eff,
      _dosage_text (dget raw "dosage"), reason⟩
  else
    let med_cc := dget raw "medicationCodeableConcept"
    let authored := pyOr (dget raw "authoredOn") (dget raw "dateWritten")
    let text ← _best_text med_cc
    let reason ← _best_text (firstOrEmptyObjIfList (dget raw "reasonCode"))
    pure ⟨source, resource_type, text, _all_codings med_cc,
      jStrOpt (pyOr (dget raw "status") (dget raw "intent")), _best_date parseIso authored,
      _dosage_instruction_text (dget raw "dosageInstruction"), reason⟩

/-- Which canonical-row list a normalized record lands in. -/
inductive RowDelta where
  | cond : ConditionRow → RowDelta
  | med : MedicationRow → RowDelta
  | obsd : ObservationRow → RowDelta
  | alg : AllergyRow → RowDelta
  | enc : EncounterRow → RowDelta
  | other : RowDelta

/-- Embedding of `normalize._chunk_text_condition`. -/
def _chunk_text_condition (row : ConditionRow) : String :=
  joinSep "\n" ["Resource: " ++ row.source, "Condition: " ++ row.text,
    "Codings: " ++ joinSep ", " row.codings, "Onset: " ++ row.onset,
    "Recorded: " ++ row.recorded, "ClinicalStatus: " ++ row.clinicalStatus,
    "VerificationStatus: " ++ row.verificationStatus]

/-- Python rendering of an optional string field inside an f-string. -/
def optFieldStr : Option String → String
  | none => "None"
  | some s => s

/-- Embedding of `normalize._chunk_text_med`. -/
def _chunk_text_med (row : MedicationRow) : String :=
  joinSep "\n" ["Resource: " ++ row.source, "Medication: " ++ row.text,
    "Codings: " ++ joinSep ", " row.codings, "Status: " ++ optFieldStr row.status,
    "Effective: " ++ row.effective, "Dosage: " ++ row.dosageText,
    "Reason: " ++ row.reason]

/-- Embedding of `normalize._chunk_text_obs`. -/
def _chunk_text_obs (row : ObservationRow) : String :=
  joinSep "\n" ["Resource: " ++ row.source, "Observation: " ++ row.text,
    "Codings: " ++ joinSep ", " row.codings, "Value: " ++ row.value,
    "Interpretation: " ++ row.interpretation,
    "InterpretationCodings: " ++ joinSep ", " row.interpretationCodings,
    "Effective: " ++ row.effective, "Issued: " ++ row.issued,
    "Status: " ++ optFieldStr row.status]

/-- Embedding of `normalize._chunk_text_allergy`. -/
def _chunk_text_allergy (row : AllergyRow) : String :=
  joinSep "\n" ["Resource: " ++ row.source, "Allergy: " ++ row.text,
    "Codings: " ++ joinSep ", " row.codings, "Criticality: " ++ optFieldStr row.criticality,
    "ClinicalStatus: " ++ row.clinicalStatus,
    "VerificationStatus: " ++ row.verificationStatus,
    "Category: " ++ joinSep ", " row.category, "Reactions: " ++ row.reactions]

/-- Embedding of `normalize._chunk_text_encounter`. -/
def _chunk_text_encounter (row : EncounterRow) : String :=
  joinSep "\n" ["Resource: " ++ row.source, "EncounterType: " ++ row.type,
    "Reason: " ++ row.reason, "Start: " ++ row.start, "End: " ++ row.end_,
    "Status: " ++ optFieldStr row.status]

/-- A raw FHIR resource as produced by the (external) loader. -/
structure FhirResource where
  resource_type : String
  resource_id : String
  raw : List (String × JValue)

/-- Normalization of a single raw resource (the per-type dispatch of
`normalize.normalize`, src/engine/normalize.py:18). -/
def normalizeOne (parseIso : String → Option String) (r : FhirResource) :
    Except Unit (RowDelta × Chunk) := do
  let source := r.resource_type ++ "/" ++ r.resource_id
  let raw := r.raw
  if r.resource_type = "Condition" then
    let text ← _best_text (dget raw "code")
    let cs ← _best_text (dget raw "clinicalStatus")
    let vs ← _best_text (dget raw "verificationStatus")
    let row : ConditionRow := ⟨source, text, _all_codings (dget raw "code"),
      _best_date parseIso (dget raw "onsetDateTime"),
      _best_date parseIso (dget raw "recordedDate"), cs, vs⟩
    pure (.cond row, ⟨source, _chunk_text_condition row⟩)
  else if r.resource_type = "MedicationStatement" ∨ r.resource_type = "MedicationRequest" then
    let row ← _normalize_medication parseIso r.resource_type source raw
    pure (.med row, ⟨source, _chunk_text_med row⟩)
  else if r.resource_type = "Observation" then
    let interp ← _interpretation (dget raw "interpretation")
    let text ← _best_text (dget raw "code")
    let value ← _obs_value raw
    let effStart ← jattrGet (pyOr (dget raw "period") (.obj [])) "start"
    let row : ObservationRow := ⟨source, text, _all_codings (dget raw "code"), value,
      _best_date parseIso (pyOr (dget raw "effectiveDateTime") effStart),
      _best_date parseIso (dget raw "issued"), jStrOpt (dget raw "status"),
      interp.1, interp.2⟩
    pure (.obsd row, ⟨source, _chunk_text_obs row⟩)
  else if r.resource_type = "AllergyIntolerance" then
    let text ← _best_text (dget raw "code")
    let cs ← _best_text (dget raw "clinicalStatus")
    let vs ← _best_text (dget raw "verificationStatus")
    let reacts ← _reactions (dget raw "reaction")
    let category := match pyOr (dget raw "category") (.arr []) with
      | .arr l => l.map pyStr
      | v => [pyStr v]
    let row : AllergyRow := ⟨source, text, _all_codings (dget raw "code"),
      jStrOpt (dget raw "criticality"), cs, vs, category, reacts⟩
    pure (.alg row, ⟨source, _chunk_text_allergy row⟩)
  else if r.resource_type = "Encounter" then
    let period := pyOr (dget raw "period") (.obj [])
    let tpe ← _best_text (firstOrEmptyObjIfList (dget raw "type"))
    let reason ← _best_text (firstOrEmptyObjIfList (dget raw "reasonCode"))
    let st ← jattrGet period "start"
    let en ← jattrGet period "end"
    let row : EncounterRow := ⟨source, tpe, reason, _best_date parseIso st,
      _best_date parseIso en, jStrOpt (dget raw "status")⟩
    pure (.enc row, ⟨source, _chunk_text_encounter row⟩)
  else
    let bt ← _best_text (dget raw "text")
    let txt := if bt ≠ "" then bt
               else (match raw.lookup "resourceType" with
                     | some v => pyStr v
                     | none => "")
    pure (.other, ⟨source, "Resource: " ++ source ++ "\n" ++ txt⟩)

/-- Prepend a normalized record to a corpus (used to rebuild the
append-in-input-order lists of `normalize`). -/
def prependDelta (d : RowDelta) (ch : Chunk) (nz : Normalized) : Normalized :=
  match d with
  | .cond c => { nz with conditions := c :: nz.conditions, chunks := ch :: nz.chunks }
  | .med m => { nz with medications := m :: nz.medications, chunks := ch :: nz.chunks }
  | .obsd o => { nz with observations := o :: nz.observations, chunks := ch :: nz.chunks }
  | .alg a => { nz with allergies := a :: nz.allergies, chunks := ch :: nz.chunks }
  | .enc e => { nz with encounters := e :: nz.encounters, chunks := ch :: nz.chunks }
  | .other => { nz with chunks := ch :: nz.chunks }

/-- Embedding of `normalize.normalize` (src/engine/normalize.py:10): processes
records in order; a record whose normalization raises aborts the whole batch
(the `Except` short-circuits exactly where the Python exception propagates). -/
def normalize (parseIso : String → Option String) : List FhirResource →
    Except Unit Normalized
  | [] => .ok ⟨[], [], [], [], [], []⟩
  | r :: rest => do
    let (d, ch) ← normalizeOne parseIso r
    let tail ← normalize parseIso rest
    pure (prependDelta d ch tail)

/-! Concrete rows and corpora used by the witnesses and counterexamples. -/

/-- A stopped Amoxicillin medication statement. -/
def amoxStopped : MedicationRow :=
  ⟨"MedicationStatement/m1", "MedicationStatement", "Amoxicillin", [], some "stopped", "", "", ""⟩

/-- A recorded penicillin allergy. -/
def penAllergy : AllergyRow :=
  ⟨"AllergyIntolerance/a1", "Penicillin allergy", [], none, "", "", [], ""⟩

/-- Corpus with only the stopped Amoxicillin and the penicillin allergy. -/
def avoidNz : Normalized := ⟨[], [amoxStopped], [], [penAllergy], [], []⟩

/-- An active Lisinopril medication with indication hypertension. -/
def lisinopril : MedicationRow :=
  ⟨"MedicationStatement/m2", "MedicationStatement", "Lisinopril", [], some "active", "",
   "", "hypertension"⟩

/-- Corpus with only the Lisinopril medication. -/
def medsOnlyNz : Normalized := ⟨[], [lisinopril], [], [], [], []⟩

/-- The empty corpus. -/
def emptyNz : Normalized := ⟨[], [], [], [], [], []⟩

/-- A condition recorded before the epoch (parseable date, timestamp below -1). -/
def condPreEpoch : ConditionRow := ⟨"Condition/c1", "Old", [], "", "1950-01-01", "", ""⟩

/-- A condition with a missing recorded date. -/
def condNoDate : ConditionRow := ⟨"Condition/c2", "NoDate", [], "", "", "", ""⟩

/-- An HbA1c observation from 2023. -/
def obs2023 : ObservationRow :=
  ⟨"Observation/o1", "HbA1c", ["http://loinc.org|4548-4|HbA1c"], "6.1 %", "2023-01-01",
   "", none, "", []⟩

/-- A later HbA1c observation (same LOINC code) from 2024. -/
def obs2024 : ObservationRow :=
  ⟨"Observation/o2", "HbA1c", ["http://loinc.org|4548-4|HbA1c"], "6.9 %", "2024-01-01",
   "", none, "", []⟩

/-- Corpus with the two same-LOINC observations. -/
def labsNz : Normalized := ⟨[], [], [obs2023, obs2024], [], [], []⟩

/-- An Asthma condition row. -/
def asthmaRow : ConditionRow := ⟨"Condition/c1", "Asthma", [], "", "", "", ""⟩

/-- Corpus with only the Asthma condition. -/
def asthmaNz : Normalized := ⟨[asthmaRow], [], [], [], [], []⟩

/-- A raw Condition whose CodeableConcept `coding` list holds a non-dict
entry; the claimed graceful-degradation input. -/
def badCondition : FhirResource :=
  ⟨"Condition", "bad1", [("code", .obj [("coding", .arr [.str "oops"])])]⟩

/-! Lemmas for the fact-source invariant (C2). -/

theorem mem_alistSet {β : Type} {l : List (String × β)} {k : String} {v : β} {p : String × β}
    (hp : p ∈ alistSet l k v) : p ∈ l ∨ p = (k, v) := by
  induction l with
  | nil => simp [alistSet] at hp
  | cons h t ih =>
    unfold alistSet at hp
    split at hp
    · rcases List.mem_cons.mp hp with hp | hp
      · right; exact hp
      · left; exact List.mem_cons_of_mem _ hp
    · rcases List.mem_cons.mp hp with hp | hp
      · left; exact hp ▸ List.mem_cons_self _ _
      · rcases ih hp with h1 | h1
        · left; exact List.mem_cons_of_mem _ h1
        · right; exact h1

theorem cond_matches_subset {nz : Normalized} {ent : String} {c : ConditionRow}
    (h : c ∈ cond_matches nz ent) : c ∈ nz.conditions := by
  unfold cond_matches at h
  split at h
  · exact List.mem_of_mem_filter h
  · exact h

theorem med_filtered_subset {nz : Normalized} {ent : String} {m : MedicationRow}
    (h : m ∈ med_filtered nz ent) : m ∈ nz.medications := by
  unfold med_filtered at h
  split at h
  · dsimp only at h
    split at h <;> exact List.mem_of_mem_filter h
  · simp at h

theorem med_use_list_subset {nz : Normalized} {ent : String} {m : MedicationRow}
    (h : m ∈ med_use_list nz ent) : m ∈ nz.medications := by
  unfold med_use_list at h
  dsimp only at h
  split at h
  · split at h
    · exact h
    · exact List.mem_of_mem_filter h
  · split at h
    · exact med_filtered_subset h
    · exact med_filtered_subset (List.mem_of_mem_filter h)

theorem cond_source_mem {nz : Normalized} {c : ConditionRow} (h : c ∈ nz.conditions) :
    c.source ∈ corpusSources nz := by
  simp only [corpusSources, List.mem_append, List.mem_map]
  exact Or.inl (Or.inl (Or.inl (Or.inl ⟨c, h, rfl⟩)))

theorem med_source_mem {nz : Normalized} {m : MedicationRow} (h : m ∈ nz.medications) :
    m.source ∈ corpusSources nz := by
  simp only [corpusSources, List.mem_append, List.mem_map]
  exact Or.inl (Or.inl (Or.inl (Or.inr ⟨m, h, rfl⟩)))

theorem obs_source_mem {nz : Normalized} {o : ObservationRow} (h : o ∈ nz.observations) :
    o.source ∈ corpusSources nz := by
  simp only [corpusSources, List.mem_append, List.mem_map]
  exact Or.inl (Or.inl (Or.inr ⟨o, h, rfl⟩))

theorem alg_source_mem {nz : Normalized} {a : AllergyRow} (h : a ∈ nz.allergies) :
    a.source ∈ corpusSources nz := by
  simp only [corpusSources, List.mem_append, List.mem_map]
  exact Or.inl (Or.inr ⟨a, h, rfl⟩)

theorem enc_source_mem {nz : Normalized} {e : EncounterRow} (h : e ∈ nz.encounters) :
    e.source ∈ corpusSources nz := by
  simp only [corpusSources, List.mem_append, List.mem_map]
  exact Or.inr ⟨e, h, rfl⟩

theorem handle_condition_sources (parse : String → Option Int) (nz : Normalized)
    (entity : String) :
    ∀ f ∈ (handle_condition parse nz entity).facts, f.source ∈ corpusSources nz := by
  intro f hf
  unfold handle_condition at hf
  dsimp only at hf
  split at hf
  · simp at hf
  · split at hf
    · simp at hf
    · dsimp only at hf
      rw [List.mem_map] at hf
      obtain ⟨c, hc, hfc⟩ := hf
      rw [_sort_by_date, List.mem_insertionSort] at hc
      rw [← hfc]
      exact cond_source_mem (cond_matches_subset hc)

theorem handle_medications_sources (parse : String → Option Int) (nz : Normalized)
    (entity : String) :
    ∀ f ∈ (handle_medications parse nz entity).facts, f.source ∈ corpusSources nz := by
  intro f hf
  unfold handle_medications at hf
  dsimp only at hf
  split at hf
  · simp at hf
  · rw [List.mem_map] at hf
    obtain ⟨m, hm, hfm⟩ := hf
    rw [_sort_by_date, List.mem_insertionSort] at hm
    rw [← hfm]
    exact med_source_mem (med_use_list_subset hm)

theorem handle_allergies_sources (nz : Normalized) :
    ∀ f ∈ (handle_allergies nz).facts, f.source ∈ corpusSources nz := by
  intro f hf
  unfold handle_allergies at hf
  dsimp only at hf
  split at hf
  · simp at hf
  · rw [List.mem_map] at hf
    obtain ⟨a, ha, hfa⟩ := hf
    rw [← hfa]
    exact alg_source_mem ha

theorem labBestStep_mem {parse : String → Option Int} {best : List (String × ObservationRow)}
    {o : ObservationRow} {p : String × ObservationRow}
    (hp : p ∈ labBestStep parse best o) : p ∈ best ∨ p.2 = o := by
  unfold labBestStep at hp
  split at hp
  · rcases List.mem_append.mp hp with h | h
    · left; exact h
    · right; simp at h; rw [h]
  · split at hp
    · rcases mem_alistSet hp with h | h
      · left; exact h
      · right; rw [h]
    · left; exact hp

theorem lab_best_mem {parse : String → Option Int} {l : List ObservationRow}
    {p : String × ObservationRow} (hp : p ∈ lab_best parse l) : p.2 ∈ l := by
  have main : ∀ (l : List ObservationRow) (acc), p ∈ l.foldl (labBestStep parse) acc →
      p ∈ acc ∨ p.2 ∈ l := by
    intro l
    induction l with
    | nil => intro acc h; exact Or.inl h
    | cons o t ih =>
      intro acc h
      rcases ih _ h with h1 | h1
      · rcases labBestStep_mem h1 with h2 | h2
        · exact Or.inl h2
        · exact Or.inr (by simp [h2])
      · exact Or.inr (List.mem_cons_of_mem _ h1)
  rcases main l [] hp with h | h
  · simp at h
  · exact h

theorem avoidProcessOne_fst {a : AllergyRow} {p : AllergyRow × Bool × String}
    (h : avoidProcessOne a = some p) : p.1 = a := by
  unfold avoidProcessOne at h
  dsimp only at h
  split at h
  · simp at h
  · split at h <;> (cases h; rfl)

theorem avoidMatchOne_sources {m : MedicationRow} {a : AllergyRow} {x : String × String × String}
    (h : avoidMatchOne m a = some x) : x.2.1 = m.source ∧ x.2.2 = a.source := by
  unfold avoidMatchOne at h
  dsimp only at h
  split at h
  · simp at h
  · split at h
    · cases h; exact ⟨rfl, rfl⟩
    · simp at h

theorem avoidAllergyFacts_sources {nz : Normalized} {f : Fact}
    (h : f ∈ avoidAllergyFacts nz) : f.source ∈ corpusSources nz := by
  unfold avoidAllergyFacts at h
  rw [List.mem_map] at h
  obtain ⟨p, hp, hfp⟩ := h
  unfold avoidProcessed at hp
  rw [List.mem_filterMap] at hp
  obtain ⟨a, ha, hpa⟩ := hp
  rw [← hfp]
  have : p.1 = a := avoidProcessOne_fst hpa
  dsimp only
  rw [this]
  exact alg_source_mem ha

theorem avoidMatchedSources_mem {nz : Normalized} {s : String}
    (h : s ∈ avoidMatchedSources nz) : s ∈ corpusSources nz := by
  unfold avoidMatchedSources at h
  rw [List.mem_flatMap] at h
  obtain ⟨x, hx, hsx⟩ := h
  unfold avoidMatched at hx
  rw [List.mem_flatMap] at hx
  obtain ⟨m, hm, hxm⟩ := hx
  have hx2 : x ∈ nz.allergies.filterMap (avoidMatchOne m) := by
    split at hxm
    · simp at hxm
    · exact hxm
  rw [List.mem_filterMap] at hx2
  obtain ⟨a, ha, hxa⟩ := hx2
  obtain ⟨h1, h2⟩ := avoidMatchOne_sources hxa
  rcases List.mem_cons.mp hsx with rfl | hsx
  · rw [h1]; exact med_source_mem hm
  · rcases List.mem_cons.mp hsx with rfl | hsx
    · rw [h2]; exact alg_source_mem ha
    · simp at hsx

theorem handle_avoid_sources (nz : Normalized) :
    ∀ f ∈ (handle_avoid_due_to_allergies nz).facts, f.source ∈ corpusSources nz := by
  intro f hf
  unfold handle_avoid_due_to_allergies at hf
  dsimp only at hf
  split at hf
  · simp at hf
  · split at hf
    · -- matched branch
      dsimp only at hf
      rcases List.mem_append.mp hf with h1 | h2
      · rw [List.mem_map] at h1
        obtain ⟨st, hst, hfe⟩ := h1
        have hs : st.1 ∈ avoidMatchedSources nz := (List.of_mem_zip hst).1
        rw [← hfe]
        exact avoidMatchedSources_mem hs
      · exact avoidAllergyFacts_sources h2
    · split at hf
      · exact handle_allergies_sources nz f hf
      · dsimp only at hf
        exact avoidAllergyFacts_sources hf

theorem labs_obs_use_subset {nz : Normalized} {q : String} {o : ObservationRow}
    (h : o ∈ labs_obs_use nz q) : o ∈ nz.observations := by
  unfold labs_obs_use at h
  dsimp only at h
  split at h
  · exact List.mem_of_mem_filter h
  · exact h

theorem labs_selected_subset {parse : String → Option Int} {nz : Normalized} {q : String}
    {o : ObservationRow} (h : o ∈ labs_selected parse nz q) : o ∈ nz.observations := by
  unfold labs_selected at h
  dsimp only at h
  have h1 := List.take_subset _ _ h
  rw [List.mem_insertionSort, List.mem_map] at h1
  obtain ⟨p, hp, hpo⟩ := h1
  exact labs_obs_use_subset (hpo ▸ lab_best_mem hp)

theorem handle_labs_sources (parse : String → Option Int) (nz : Normalized) (q : String) :
    ∀ f ∈ (handle_labs parse nz q).facts, f.source ∈ corpusSources nz := by
  intro f hf
  unfold handle_labs at hf
  dsimp only at hf
  split at hf
  · simp at hf
  · split at hf
    · simp at hf
    · rw [List.mem_map] at hf
      obtain ⟨o, ho, hfo⟩ := hf
      rw [← hfo]
      exact obs_source_mem (labs_selected_subset ho)

theorem handle_diabetes_sources (parse : String → Option Int) (nz : Normalized) :
    ∀ f ∈ (handle_diabetes_complications parse nz).facts, f.source ∈ corpusSources nz := by
  intro f hf
  unfold handle_diabetes_complications at hf
  dsimp only at hf
  split at hf
  · simp at hf
  · split at hf
    · simp at hf
    · dsimp only at hf
      rw [List.mem_map] at hf
      obtain ⟨c, hc, hfc⟩ := hf
      rw [_sort_by_date, List.mem_insertionSort] at hc
      rw [← hfc]
      exact cond_source_mem (List.mem_of_mem_filter hc)

theorem handle_encounters_sources (parse : String → Option Int) (nz : Normalized) :
    ∀ f ∈ (handle_encounters parse nz).facts, f.source ∈ corpusSources nz := by
  intro f hf
  unfold handle_encounters at hf
  dsimp only at hf
  split at hf
  · simp at hf
  · rw [List.mem_map] at hf
    obtain ⟨e, he, hfe⟩ := hf
    have he2 : e ∈ nz.encounters := by
      split at he
      · have h3 := List.take_subset _ _ he
        rw [_sort_by_date, List.mem_insertionSort] at h3
        exact h3
      · exact List.take_subset _ _ he
    rw [← hfe]
    exact enc_source_mem he2

/-! Claim theorems. -/

/-- C8: `route` is a total, deterministic function — it is a Lean function,
hence deterministic and never-raising by construction — and for every input
string its intent is one of the eight declared intents, chosen by the ordered
first-match-wins rule chain; in particular the query
"urgent care visit last week" routes to `encounter` (with no extracted
entity), not `labs` or `condition`. -/
theorem route_total_and_urgent_care_encounter (q : String) :
    (route q).intent ∈ (["avoid_allergies", "diabetes_complications", "allergy",
      "encounter", "labs", "medication", "condition", "fallback"] : List String) ∧
    route "urgent care visit last week" =
      ⟨"encounter", "", "urgent care visit last week"⟩ := by
  constructor
  · unfold route
    dsimp only
    split_ifs <;> simp
  · decide

/-- C1: the guardrail of `answer_query`: whenever the returned Answer has
`used_llm = true`, the accepted answer text contains the literal "Source:"
marker, and — whenever the deterministic citation set is non-empty — every
citation token occurring in the answer text is a member of that citation
set. -/
theorem answer_query_citation_guardrail (parse : String → Option Int) (nz : Normalized)
    (query : String) (use_llm : Bool) (gen : Except Unit String)
    (h : (answer_query parse nz query use_llm gen).used_llm = true) :
    pyIn "Source:" (answer_query parse nz query use_llm gen).answer = true ∧
    ((answer_query parse nz query use_llm gen).citations ≠ [] →
      ∀ tok ∈ citeTokens (answer_query parse nz query use_llm gen).answer,
        tok ∈ (answer_query parse nz query use_llm gen).citations) := by
  unfold answer_query at h ⊢
  dsimp only at h ⊢
  cases use_llm with
  | false => simp at h
  | true =>
    rw [if_pos rfl] at h ⊢
    cases gen with
    | error e => dsimp only at h; simp at h
    | ok t =>
      dsimp only at h ⊢
      by_cases hc1 : (t ≠ "" ∧ pyIn "Source:" t = true)
      · rw [if_pos hc1] at h ⊢
        by_cases hc2 : citeTokens t ≠ []
        · rw [if_pos hc2] at h ⊢
          by_cases hc3 : (if (answerDispatch parse nz query).2.1 ≠ [] then
              sortedUnique ((answerDispatch parse nz query).2.1.map (·.source)) else []) ≠ []
          · rw [if_pos hc3] at h ⊢
            by_cases hc4 : ((citeTokens t).all (fun x => decide (x ∈
                if (answerDispatch parse nz query).2.1 ≠ [] then
                  sortedUnique ((answerDispatch parse nz query).2.1.map (·.source))
                else []))) = true
            · rw [if_pos hc4] at h ⊢
              refine ⟨hc1.2, fun _ tok htok => ?_⟩
              exact of_decide_eq_true (List.all_eq_true.mp hc4 tok htok)
            · rw [if_neg hc4] at h; simp at h
          · rw [if_neg hc3] at h ⊢
            exact ⟨hc1.2, fun hne _ _ => absurd (not_not.mp hc3) hne⟩
        · rw [if_neg hc2] at h; simp at h
      · rw [if_neg hc1] at h; simp at h

/-- Witness for C1: a concrete corpus and accepted generation where the
guardrail conclusion is exercised. -/
theorem answer_query_citation_guardrail_witness :
    pyIn "Source:" (answer_query isoParseTs asthmaNz "condition" true
      (.ok "Asthma present. Source: Condition/c1")).answer = true ∧
    ((answer_query isoParseTs asthmaNz "condition" true
        (.ok "Asthma present. Source: Condition/c1")).citations ≠ [] →
      ∀ tok ∈ citeTokens (answer_query isoParseTs asthmaNz "condition" true
        (.ok "Asthma present. Source: Condition/c1")).answer,
        tok ∈ (answer_query isoParseTs asthmaNz "condition" true
          (.ok "Asthma present. Source: Condition/c1")).citations) :=
  answer_query_citation_guardrail isoParseTs asthmaNz "condition" true
    (.ok "Asthma present. Source: Condition/c1") (by decide)

/-- C10: with `use_llm = true` and a successful generation, generated text
containing no citation token is always rejected: `used_llm` stays false and
the answer equals the deterministic answer; conversely any accepted
generation carries at least one citation token, even when the deterministic
citation set is empty. -/
theorem answer_query_rejects_tokenless_text (parse : String → Option Int) (nz : Normalized)
    (query t : String) (_hmarker : pyIn "Source:" t = true)
    (hnotok : citeTokens t = []) :
    (answer_query parse nz query true (.ok t)).used_llm = false ∧
    (answer_query parse nz query true (.ok t)).answer = (answerDispatch parse nz query).2.2 ∧
    (∀ t' : String, (answer_query parse nz query true (.ok t')).used_llm = true →
      citeTokens t' ≠ []) := by
  refine ⟨?_, ?_, ?_⟩
  · unfold answer_query
    dsimp only
    rw [if_pos rfl]
    by_cases hc1 : (t ≠ "" ∧ pyIn "Source:" t = true)
    · rw [if_pos hc1, if_neg (by simp [hnotok])]
    · rw [if_neg hc1]
  · unfold answer_query
    dsimp only
    rw [if_pos rfl]
    by_cases hc1 : (t ≠ "" ∧ pyIn "Source:" t = true)
    · rw [if_pos hc1, if_neg (by simp [hnotok])]
    · rw [if_neg hc1]
  · intro t' h
    unfold answer_query at h
    dsimp only at h
    rw [if_pos rfl] at h
    by_cases hc1 : (t' ≠ "" ∧ pyIn "Source:" t' = true)
    · rw [if_pos hc1] at h
      by_cases hc2 : citeTokens t' ≠ []
      · exact hc2
      · rw [if_neg hc2] at h; simp at h
    · rw [if_neg hc1] at h; simp at h

/-- Witness for C10: a generation with a "Source:" line but no token of the
form `Word/Word-ish` is rejected on a concrete corpus. -/
theorem answer_query_rejects_tokenless_text_witness :
    (answer_query isoParseTs asthmaNz "condition" true
      (.ok "No citations here. Source: unavailable")).used_llm = false ∧
    (answer_query isoParseTs asthmaNz "condition" true
      (.ok "No citations here. Source: unavailable")).answer =
      (answerDispatch isoParseTs asthmaNz "condition").2.2 ∧
    (∀ t' : String, (answer_query isoParseTs asthmaNz "condition" true
      (.ok t')).used_llm = true → citeTokens t' ≠ []) :=
  answer_query_rejects_tokenless_text isoParseTs asthmaNz "condition"
    "No citations here. Source: unavailable" (by decide) (by decide)

/-- C3 (code bug): with the allergy "Penicillin allergy" and the STOPPED
medication "Amoxicillin" — which the handler's own `current_meds` filter
excludes — `handle_avoid_due_to_allergies` still emits the explicit line
"Avoid Amoxicillin due to allergy to Penicillin allergy": the matching loop
iterates over all medications instead of the current ones. -/
theorem avoid_line_emitted_for_stopped_medication :
    amoxStopped.status = some "stopped" ∧
    (avoidNz.medications.filter (fun m =>
      statusLower m ∉ (["stopped", "entered-in-error"] : List String))) = [] ∧
    pyIn "Avoid Amoxicillin due to allergy to Penicillin allergy"
      (handle_avoid_due_to_allergies avoidNz).answer = true := by decide

/-- C9 (code bug): `normalize` is not total: on a Condition whose
CodeableConcept `coding` list contains a non-dict entry (and no usable
`text`), `_best_text` performs `codings[0].get("display")` on a non-dict and
raises, aborting the whole normalization instead of degrading gracefully. -/
theorem normalize_raises_on_nondict_coding :
    (∀ parseIso : String → Option String, normalize parseIso [badCondition] = .error ()) ∧
    _best_text (.obj [("coding", .arr [.str "oops"])]) = .error () :=
  ⟨fun _ => rfl, rfl⟩

/-- C2: for every corpus, every handler and every entity/query input, each
Fact in the returned facts list has a `source` equal to the source of some
canonical row of that corpus, so every deterministic citation resolves to a
real record. -/
theorem handler_fact_sources_in_corpus (parse : String → Option Int) (nz : Normalized)
    (entity query : String) :
    (∀ f ∈ (handle_condition parse nz entity).facts, f.source ∈ corpusSources nz) ∧
    (∀ f ∈ (handle_medications parse nz entity).facts, f.source ∈ corpusSources nz) ∧
    (∀ f ∈ (handle_allergies nz).facts, f.source ∈ corpusSources nz) ∧
    (∀ f ∈ (handle_avoid_due_to_allergies nz).facts, f.source ∈ corpusSources nz) ∧
    (∀ f ∈ (handle_diabetes_complications parse nz).facts, f.source ∈ corpusSources nz) ∧
    (∀ f ∈ (handle_labs parse nz query).facts, f.source ∈ corpusSources nz) ∧
    (∀ f ∈ (handle_encounters parse nz).facts, f.source ∈ corpusSources nz) :=
  ⟨handle_condition_sources parse nz entity, handle_medications_sources parse nz entity,
   handle_allergies_sources nz, handle_avoid_sources nz,
   handle_diabetes_sources parse nz, handle_labs_sources parse nz query,
   handle_encounters_sources parse nz⟩

/-- Witness for C2: the single fact produced by `handle_condition` on the
one-condition corpus has a source that is a canonical-row source. -/
theorem handler_fact_sources_in_corpus_witness :
    "Condition/c1" ∈ corpusSources asthmaNz :=
  (handler_fact_sources_in_corpus isoParseTs asthmaNz "" "").1
    (Fact.mk "Condition/c1" (condLine "" asthmaRow)) (by decide)

/-! Lemmas and theorems for date sorting (C6), Not-found behaviour (C5)
and the labs grouping pipeline (C7). -/

/-- C6 (amended): `_sort_by_date` sorts descending by best-effort parsed
timestamp, where a missing or unparseable date is treated as timestamp -1 (so
such a row sorts after every row whose parsed timestamp exceeds -1, though a
pre-epoch parseable date, with timestamp below -1, sorts after it); the result
is a permutation of the input and rows with equal sort keys keep their input
order (stability). -/
theorem sort_by_date_spec {α : Type} (parse : String → Option Int) (key : α → String)
    (rows : List α) :
    ((_sort_by_date parse key rows).Pairwise
      (fun a b => parse_dt parse (key b) ≤ parse_dt parse (key a))) ∧
    (_sort_by_date parse key rows).Perm rows ∧
    (∀ a b : α, List.Sublist [a, b] rows → parse_dt parse (key b) ≤ parse_dt parse (key a) →
      List.Sublist [a, b] (_sort_by_date parse key rows)) ∧
    (∀ v, (v = "" ∨ parse v = none) → parse_dt parse v = -1) := by
  haveI htot : IsTotal α (fun a b => parse_dt parse (key b) ≤ parse_dt parse (key a)) :=
    ⟨fun a b => le_total _ _⟩
  haveI htr : IsTrans α (fun a b => parse_dt parse (key b) ≤ parse_dt parse (key a)) :=
    ⟨fun _ _ _ h1 h2 => le_trans h2 h1⟩
  refine ⟨?_, ?_, ?_, ?_⟩
  · exact List.sorted_insertionSort _ rows
  · exact List.perm_insertionSort _ rows
  · intro a b hab hle
    exact List.pair_sublist_insertionSort hle hab
  · intro v hv
    rcases hv with rfl | hv
    · simp [parse_dt]
    · simp [parse_dt, hv]

/-- Counterexample for C6 as stated: "1950-01-01" is parseable (timestamp
-631152000 < -1), yet the missing-date row sorts BEFORE it, so a row with a
missing date does not sort after every row with a parseable date. -/
theorem sort_by_date_pre_epoch_counterexample :
    isoParseTs "1950-01-01" = some (-631152000) ∧
    _sort_by_date isoParseTs (fun c : ConditionRow => c.recorded) [condPreEpoch, condNoDate]
      = [condNoDate, condPreEpoch] := by
  constructor <;> decide

/-- Witness for C6: the stability clause and the missing/unparseable
sentinel evaluated at concrete inputs. -/
theorem sort_by_date_spec_witness :
    List.Sublist [condNoDate, condNoDate] (_sort_by_date isoParseTs
        (fun c : ConditionRow => c.recorded) [condNoDate, condNoDate]) ∧
    parse_dt isoParseTs "not-a-date" = -1 :=
  ⟨(sort_by_date_spec isoParseTs (fun c : ConditionRow => c.recorded)
      [condNoDate, condNoDate]).2.2.1 condNoDate condNoDate (List.Sublist.refl _) (le_refl _),
   (sort_by_date_spec isoParseTs (fun c : ConditionRow => c.recorded) []).2.2.2
      "not-a-date" (Or.inr (by decide))⟩

/-- C5 (amended): every handler returns exactly "Not found in provided
records." with empty facts when no rows of its resource kind exist;
`handle_condition` and `handle_labs` also do so when their entity/keyword
filter leaves no surviving rows; `handle_medications`, however, falls back to
listing ALL medications when the entity matches no reason or medication text
(its facts are non-empty whenever any medication row exists). -/
theorem handlers_not_found (parse : String → Option Int) (nz : Normalized)
    (entity query : String) :
    (nz.conditions = [] →
      handle_condition parse nz entity = ⟨[], "Not found in provided records."⟩) ∧
    (nz.medications = [] →
      handle_medications parse nz entity = ⟨[], "Not found in provided records."⟩) ∧
    (nz.allergies = [] → handle_allergies nz = ⟨[], "Not found in provided records."⟩) ∧
    (nz.allergies = [] →
      handle_avoid_due_to_allergies nz = ⟨[], "Not found in provided records."⟩) ∧
    (nz.conditions = [] →
      handle_diabetes_complications parse nz = ⟨[], "Not found in provided records."⟩) ∧
    (nz.observations = [] → handle_labs parse nz query = ⟨[], "Not found in provided records."⟩) ∧
    (nz.encounters = [] → handle_encounters parse nz = ⟨[], "Not found in provided records."⟩) ∧
    (cond_matches nz (pyLower (pyStrip entity)) = [] →
      handle_condition parse nz entity = ⟨[], "Not found in provided records."⟩) ∧
    (labs_obs_use nz query = [] →
      handle_labs parse nz query = ⟨[], "Not found in provided records."⟩) ∧
    (nz.medications ≠ [] → (handle_medications parse nz entity).facts ≠ []) := by
  refine ⟨?_, ?_, ?_, ?_, ?_, ?_, ?_, ?_, ?_, ?_⟩
  · intro h; unfold handle_condition; rw [if_pos h]
  · intro h; unfold handle_medications; rw [if_pos h]
  · intro h; unfold handle_allergies; rw [if_pos h]
  · intro h; unfold handle_avoid_due_to_allergies; dsimp only; rw [if_pos h]
  · intro h; unfold handle_diabetes_complications; rw [if_pos h]
  · intro h; unfold handle_labs; rw [if_pos h]
  · intro h; unfold handle_encounters; rw [if_pos h]
  · intro h
    unfold handle_condition
    dsimp only
    split <;> simp [h]
  · intro h
    unfold handle_labs
    dsimp only
    split <;> simp [h]
  · intro hmeds
    have hul : med_use_list nz (pyLower (pyStrip entity)) ≠ [] := by
      unfold med_use_list
      dsimp only
      by_cases hf : med_filtered nz (pyLower (pyStrip entity)) = []
      · rw [if_pos hf]
        split
        · exact hmeds
        · assumption
      · rw [if_neg hf]
        split
        · exact hf
        · assumption
    unfold handle_medications
    dsimp only
    rw [if_neg hmeds]
    dsimp only
    intro hcontra
    rw [List.map_eq_nil_iff] at hcontra
    have hlen := congrArg List.length hcontra
    rw [_sort_by_date] at hlen
    rw [List.length_insertionSort] at hlen
    exact hul (List.length_eq_zero.mp hlen)

/-- Counterexample for C5 as stated: a non-empty medications list with an
entity ("asthma") matching no reason and no medication text does NOT yield
"Not found in provided records." — the handler lists all medications. -/
theorem handle_medications_unmatched_entity_counterexample :
    pyIn "asthma" (pyLower lisinopril.reason) = false ∧
    pyIn "asthma" (pyLower lisinopril.text) = false ∧
    (handle_medications isoParseTs medsOnlyNz "asthma").answer ≠
      "Not found in provided records." ∧
    (handle_medications isoParseTs medsOnlyNz "asthma").facts =
      [⟨"MedicationStatement/m2", medLine lisinopril⟩] := by
  refine ⟨by decide, by decide, by decide, by decide⟩

/-- Witness for C5: the empty corpus gives Not-found for `handle_condition`;
a non-empty medications list gives non-empty facts for an unmatched entity. -/
theorem handlers_not_found_witness :
    handle_condition isoParseTs emptyNz "x" = ⟨[], "Not found in provided records."⟩ ∧
    (handle_medications isoParseTs medsOnlyNz "asthma").facts ≠ [] :=
  ⟨(handlers_not_found isoParseTs emptyNz "x" "q").1 rfl,
   (handlers_not_found isoParseTs medsOnlyNz "asthma" "q").2.2.2.2.2.2.2.2.2 (by decide)⟩

theorem alistSet_keys {β : Type} (l : List (String × β)) (k : String) (v : β) :
    (alistSet l k v).map Prod.fst = l.map Prod.fst := by
  induction l with
  | nil => rfl
  | cons h t ih =>
    unfold alistSet
    split
    case isTrue he => simp [he]
    case isFalse he => simp [ih]

theorem lookup_eq_none_iff {β : Type} {l : List (String × β)} {k : String} :
    l.lookup k = none ↔ k ∉ l.map Prod.fst := by
  induction l with
  | nil => simp
  | cons h t ih =>
    obtain ⟨k', v'⟩ := h
    by_cases he : k = k'
    · subst he
      simp [List.lookup]
    · have hbe : (k == k') = false := beq_false_of_ne he
      simp only [List.lookup, hbe, List.map_cons, List.mem_cons, not_or]
      rw [ih]
      simp [he]


theorem lookup_append_of_none {β : Type} {l₁ : List (String × β)} (l₂ : List (String × β))
    {k : String} (h : l₁.lookup k = none) : (l₁ ++ l₂).lookup k = l₂.lookup k := by
  induction l₁ with
  | nil => rfl
  | cons hd t ih =>
    obtain ⟨k', v'⟩ := hd
    by_cases he : k = k'
    · subst he; simp [List.lookup] at h
    · have hbe : (k == k') = false := beq_false_of_ne he
      simp only [List.lookup, hbe] at h
      simp only [List.cons_append, List.lookup, hbe]
      exact ih h

theorem lookup_append_of_some {β : Type} {l₁ : List (String × β)} (l₂ : List (String × β))
    {k : String} {v : β} (h : l₁.lookup k = some v) : (l₁ ++ l₂).lookup k = some v := by
  induction l₁ with
  | nil => simp [List.lookup] at h
  | cons hd t ih =>
    obtain ⟨k', v'⟩ := hd
    by_cases he : k = k'
    · subst he
      simp only [List.lookup, beq_self_eq_true] at h ⊢
      simpa using h
    · have hbe : (k == k') = false := beq_false_of_ne he
      simp only [List.lookup, hbe] at h
      simp only [List.cons_append, List.lookup, hbe]
      exact ih h

theorem alistSet_lookup_of_some {β : Type} {l : List (String × β)} {k : String} {w : β}
    (v : β) (h : l.lookup k = some w) : (alistSet l k v).lookup k = some v := by
  induction l with
  | nil => simp [List.lookup] at h
  | cons hd t ih =>
    obtain ⟨k', v'⟩ := hd
    unfold alistSet
    by_cases he : k' = k
    · rw [if_pos he]
      simp [List.lookup]
    · rw [if_neg he]
      have hbe : (k == k') = false := beq_false_of_ne (fun hkk => he hkk.symm)
      simp only [List.lookup, hbe] at h ⊢
      exact ih h

theorem alistSet_lookup_ne {β : Type} {l : List (String × β)} {k k' : String} (v : β)
    (hne : k' ≠ k) : (alistSet l k v).lookup k' = l.lookup k' := by
  induction l with
  | nil => rfl
  | cons hd t ih =>
    obtain ⟨k0, v0⟩ := hd
    unfold alistSet
    by_cases he : k0 = k
    · rw [if_pos he]
      have h1 : (k' == k) = false := beq_false_of_ne hne
      have h2 : (k' == k0) = false := beq_false_of_ne (he ▸ hne)
      simp [List.lookup, h1, h2]
    · rw [if_neg he]
      by_cases hk0 : k' = k0
      · subst hk0
        simp [List.lookup]
      · have hbe : (k' == k0) = false := beq_false_of_ne hk0
        simp only [List.lookup, hbe]
        exact ih

theorem lookup_of_mem_nodup {β : Type} {l : List (String × β)} {k : String} {x : β}
    (hnd : (l.map Prod.fst).Nodup) (hm : (k, x) ∈ l) : l.lookup k = some x := by
  induction l with
  | nil => simp at hm
  | cons hd t ih =>
    obtain ⟨k', v'⟩ := hd
    rw [List.map_cons, List.nodup_cons] at hnd
    obtain ⟨hnotin, hndt⟩ := hnd
    rcases List.mem_cons.mp hm with he | hm2
    · cases he
      simp [List.lookup]
    · have hk : k ≠ k' := by
        intro hkk
        subst hkk
        exact hnotin (List.mem_map.mpr ⟨(k, x), hm2, rfl⟩)
      have hbe : (k == k') = false := beq_false_of_ne hk
      simp only [List.lookup, hbe]
      exact ih hndt hm2

theorem labBestStep_keys_nodup {parse : String → Option Int}
    {best : List (String × ObservationRow)} {o : ObservationRow}
    (hnd : (best.map Prod.fst).Nodup) :
    ((labBestStep parse best o).map Prod.fst).Nodup := by
  unfold labBestStep
  split
  case h_1 hnone =>
    rw [List.map_append]
    rw [List.nodup_append]
    refine ⟨hnd, by simp, ?_⟩
    intro a ha hb
    simp at hb
    subst hb
    exact (lookup_eq_none_iff.mp hnone) ha
  case h_2 prev hsome =>
    split
    · rw [alistSet_keys]
      exact hnd
    · exact hnd

theorem labBestStep_keys_eq {parse : String → Option Int}
    {best : List (String × ObservationRow)} {o : ObservationRow}
    (h : ∀ p ∈ best, p.1 = labKey p.2) :
    ∀ p ∈ labBestStep parse best o, p.1 = labKey p.2 := by
  intro p hp
  unfold labBestStep at hp
  split at hp
  · rcases List.mem_append.mp hp with h1 | h1
    · exact h p h1
    · simp at h1
      rw [h1]
  · split at hp
    · rcases mem_alistSet hp with h1 | h1
      · exact h p h1
      · rw [h1]
    · exact h p hp

theorem lab_best_keys_nodup {parse : String → Option Int} {l : List ObservationRow} :
    ((lab_best parse l).map Prod.fst).Nodup := by
  have main : ∀ (l : List ObservationRow) (acc : List (String × ObservationRow)),
      (acc.map Prod.fst).Nodup → ((l.foldl (labBestStep parse) acc).map Prod.fst).Nodup := by
    intro l
    induction l with
    | nil => intro acc h; exact h
    | cons o t ih => intro acc h; exact ih _ (labBestStep_keys_nodup h)
  exact main l [] (by simp)

theorem lab_best_keys_eq {parse : String → Option Int} {l : List ObservationRow} :
    ∀ p ∈ lab_best parse l, p.1 = labKey p.2 := by
  have main : ∀ (l : List ObservationRow) (acc : List (String × ObservationRow)),
      (∀ p ∈ acc, p.1 = labKey p.2) →
      ∀ p ∈ l.foldl (labBestStep parse) acc, p.1 = labKey p.2 := by
    intro l
    induction l with
    | nil => intro acc h; exact h
    | cons o t ih => intro acc h; exact ih _ (labBestStep_keys_eq h)
  exact main l [] (by simp)

theorem labBestStep_entry {parse : String → Option Int}
    {best : List (String × ObservationRow)} (o : ObservationRow) :
    ∃ w, (labBestStep parse best o).lookup (labKey o) = some w ∧
      obs_ts parse o ≤ obs_ts parse w := by
  unfold labBestStep
  split
  case h_1 hnone =>
    refine ⟨o, ?_, le_refl _⟩
    rw [lookup_append_of_none _ hnone]
    simp [List.lookup]
  case h_2 prev hsome =>
    split
    case isTrue hlt => exact ⟨o, alistSet_lookup_of_some o hsome, le_refl _⟩
    case isFalse hge => exact ⟨prev, hsome, le_of_not_lt hge⟩

theorem labBestStep_mono {parse : String → Option Int}
    {best : List (String × ObservationRow)} {o : ObservationRow} {k : String}
    {w : ObservationRow} (h : best.lookup k = some w) :
    ∃ w', (labBestStep parse best o).lookup k = some w' ∧
      obs_ts parse w ≤ obs_ts parse w' := by
  by_cases hk : labKey o = k
  · subst hk
    unfold labBestStep
    rw [h]
    dsimp only
    split
    next hlt => exact ⟨o, alistSet_lookup_of_some o h, le_of_lt hlt⟩
    next hge => exact ⟨w, h, le_refl _⟩
  · unfold labBestStep
    split
    next hnone => exact ⟨w, lookup_append_of_some _ h, le_refl _⟩
    next prev hsome =>
      split
      · exact ⟨w, by rw [alistSet_lookup_ne o (fun he => hk he.symm)]; exact h, le_refl _⟩
      · exact ⟨w, h, le_refl _⟩

theorem lab_best_fold_mono {parse : String → Option Int} (t : List ObservationRow)
    (acc : List (String × ObservationRow)) {k : String} {w : ObservationRow}
    (h : acc.lookup k = some w) :
    ∃ w', (t.foldl (labBestStep parse) acc).lookup k = some w' ∧
      obs_ts parse w ≤ obs_ts parse w' := by
  induction t generalizing acc w with
  | nil => exact ⟨w, h, le_refl _⟩
  | cons o t ih =>
    obtain ⟨w1, hw1, hle1⟩ := @labBestStep_mono parse acc o k w h
    obtain ⟨w2, hw2, hle2⟩ := ih _ hw1
    exact ⟨w2, hw2, le_trans hle1 hle2⟩

theorem lab_best_max {parse : String → Option Int} {l : List ObservationRow} :
    ∀ p ∈ lab_best parse l, ∀ o' ∈ l, labKey o' = p.1 →
      obs_ts parse o' ≤ obs_ts parse p.2 := by
  have main : ∀ (l : List ObservationRow) (acc : List (String × ObservationRow)),
      (acc.map Prod.fst).Nodup →
      ∀ p ∈ l.foldl (labBestStep parse) acc, ∀ o' ∈ l, labKey o' = p.1 →
        obs_ts parse o' ≤ obs_ts parse p.2 := by
    intro l
    induction l with
    | nil => intro acc _ p _ o' ho'; simp at ho'
    | cons o t ih =>
      intro acc hnd p hp o' ho' hk
      rcases List.mem_cons.mp ho' with rfl | ho2
      · -- o' = o: the entry for labKey o only grows along the fold
        obtain ⟨w, hw, hle⟩ := @labBestStep_entry parse acc o'
        obtain ⟨w', hw', hle'⟩ := lab_best_fold_mono t _ hw
        have hfnd : ((t.foldl (labBestStep parse) (labBestStep parse acc o')).map
            Prod.fst).Nodup := by
          have main2 : ∀ (t : List ObservationRow) (acc : List (String × ObservationRow)),
              (acc.map Prod.fst).Nodup →
              ((t.foldl (labBestStep parse) acc).map Prod.fst).Nodup := by
            intro t
            induction t with
            | nil => intro acc h; exact h
            | cons x xs ih2 => intro acc h; exact ih2 _ (labBestStep_keys_nodup h)
          exact main2 _ _ (labBestStep_keys_nodup hnd)
        have hpl : (t.foldl (labBestStep parse) (labBestStep parse acc o')).lookup p.1 =
            some p.2 := by
          have : p = (p.1, p.2) := rfl
          rw [this] at hp
          exact lookup_of_mem_nodup hfnd hp
        rw [← hk] at hpl
        rw [hpl] at hw'
        cases hw'
        exact le_trans hle hle'
      · exact ih _ (labBestStep_keys_nodup hnd) p hp o' ho2 hk
  exact main l [] (by simp)

/-- C7: `handle_labs` groups candidates by first LOINC code (else lowercased
test name), keeps only the most recent observation per group (recency =
`effective` falling back to `issued`), sorts by descending recency and caps at
10: the facts list has length at most 10, the selected observations are
pairwise distinct in group key, sorted by descending timestamp, each drawn
from the candidate pool and maximal-recency within its group; concretely, of
two same-LOINC observations with different effective dates only the later one
appears. -/
theorem handle_labs_spec (parse : String → Option Int) (nz : Normalized) (query : String) :
    (handle_labs parse nz query).facts.length ≤ 10 ∧
    (labs_selected parse nz query).Pairwise
      (fun a b => obs_ts parse b ≤ obs_ts parse a) ∧
    (labs_selected parse nz query).Pairwise (fun a b => labKey a ≠ labKey b) ∧
    (∀ o ∈ labs_selected parse nz query, o ∈ labs_obs_use nz query ∧
      ∀ o' ∈ labs_obs_use nz query, labKey o' = labKey o →
        obs_ts parse o' ≤ obs_ts parse o) ∧
    (handle_labs isoParseTs labsNz "recent labs").facts.map (·.source) =
      ["Observation/o2"] := by
  haveI htot : IsTotal ObservationRow (fun a b => obs_ts parse b ≤ obs_ts parse a) :=
    ⟨fun a b => le_total _ _⟩
  haveI htr : IsTrans ObservationRow (fun a b => obs_ts parse b ≤ obs_ts parse a) :=
    ⟨fun _ _ _ h1 h2 => le_trans h2 h1⟩
  refine ⟨?_, ?_, ?_, ?_, by decide⟩
  · unfold handle_labs
    dsimp only
    split
    · simp
    · split
      · simp
      · dsimp only
        rw [List.length_map]
        unfold labs_selected
        exact List.length_take_le _ _
  · unfold labs_selected
    dsimp only
    exact List.Pairwise.sublist (List.take_sublist _ _) (List.sorted_insertionSort _ _)
  · unfold labs_selected
    dsimp only
    apply List.Pairwise.sublist (List.take_sublist _ _)
    refine ((List.perm_insertionSort _ _).pairwise_iff
      (fun {x y : ObservationRow} (h : labKey x ≠ labKey y) => Ne.symm h)).mpr ?_
    rw [List.pairwise_map]
    have hnd := @lab_best_keys_nodup parse (labs_obs_use nz query)
    rw [List.Nodup, List.pairwise_map] at hnd
    refine hnd.imp_of_mem ?_
    intro p q hp hq hne
    rw [← lab_best_keys_eq p hp, ← lab_best_keys_eq q hq]
    exact hne
  · intro o ho
    unfold labs_selected at ho
    dsimp only at ho
    have h1 := List.take_subset _ _ ho
    rw [List.mem_insertionSort, List.mem_map] at h1
    obtain ⟨p, hp, hpo⟩ := h1
    subst hpo
    refine ⟨lab_best_mem hp, ?_⟩
    intro o' ho' hk
    exact lab_best_max p hp o' ho' (hk.trans (lab_best_keys_eq p hp).symm)

/-- Witness for C7: the per-group maximality clause evaluated on the
two-observation corpus. -/
theorem handle_labs_spec_witness :
    obs2024 ∈ labs_obs_use labsNz "recent labs" ∧
    obs_ts isoParseTs obs2023 ≤ obs_ts isoParseTs obs2024 :=
  ⟨((handle_labs_spec isoParseTs labsNz "recent labs").2.2.2.1 obs2024 (by decide)).1,
   ((handle_labs_spec isoParseTs labsNz "recent labs").2.2.2.1 obs2024 (by decide)).2
     obs2023 (by decide) (by decide)⟩

end RQE
